import Mathlib

/-!
smart-expense-tracker: aggregation, budget evaluation, export and category list.

A shallow embedding of `src/utils/calculations.js`, of `exportToCSV` in
`src/components/ExportData.jsx`, of the category handlers and of
`handleDeleteTransaction` of `src/App.jsx`, of the percentages of
`src/components/Analytics.jsx` and of `getUserData` and `saveUserData` of
`src/utils/localStorage.js`.

Modelling conventions.

* A JavaScript Number is a `JsNum`: `NaN`, the two infinities, or a finite value.
  Finite values are exact rationals: IEEE-754 rounding, overflow of a finite sum and
  the sign of zero are outside the model.
* A field of a record read from storage is a `JsVal` (a JSON primitive, or `undefined`
  for an absent field).
* A plain object used as a dictionary (`{}` filled by assignment, `Object.keys`) is an
  insertion-ordered association list with first-match lookup; properties inherited
  from `Object.prototype` and the integer-key reordering of `Object.keys` are outside
  the model.
* `new Date(s)` is a parameter `D : String → Option Int` giving the time value in
  milliseconds (`none` for an Invalid Date); the current instant (`new Date()`,
  `Date.now()`) is a parameter `now : Int`, read once per call.
* `Array.prototype.sort` is a stable insertion sort, the one result a stable sort can
  give when the comparator is consistent on the elements.
* How a Number prints when an array is joined is a parameter `showNum`; the records that
  the forms store hold their amounts as strings.
* A React state is the value a handler sets; every handler call sees the state set by the
  call before it.
* Where mutation matters an array is a reference into a `Heap`; elsewhere it is a list.
* `JSON.stringify`, `JSON.parse` and `localStorage` are parameters (`Platform`): each call
  returns a value or throws, and the content of the storage is a function from keys to
  texts.
-/

namespace ExpenseTracker

/-! ## Numbers -/

/-- A JavaScript Number: NaN, plus or minus Infinity, or a finite (exact) value. -/
inductive JsNum where
  | nan : JsNum
  | inf : JsNum
  | ninf : JsNum
  | fin : ℚ → JsNum
  deriving DecidableEq

namespace JsNum

/-- Negation, the unary minus of JavaScript. -/
def neg : JsNum → JsNum
  | nan => nan
  | inf => ninf
  | ninf => inf
  | fin a => fin (-a)

/-- Addition, the binary plus of JavaScript on two Numbers. -/
def add : JsNum → JsNum → JsNum
  | nan, _ => nan
  | _, nan => nan
  | inf, ninf => nan
  | ninf, inf => nan
  | inf, _ => inf
  | _, inf => inf
  | ninf, _ => ninf
  | _, ninf => ninf
  | fin a, fin b => fin (a + b)

/-- Subtraction, the binary minus of JavaScript on two Numbers. -/
def sub (x y : JsNum) : JsNum := add x (neg y)

/-- Strict comparison `x < y`; false as soon as one side is NaN. -/
def lt : JsNum → JsNum → Bool
  | nan, _ => false
  | _, nan => false
  | inf, _ => false
  | _, ninf => false
  | ninf, _ => true
  | _, inf => true
  | fin a, fin b => decide (a < b)

/-- Strict comparison `x > y`. -/
def gt (x y : JsNum) : Bool := lt y x

/-- Absolute value, `Math.abs`. -/
def abs : JsNum → JsNum
  | nan => nan
  | inf => inf
  | ninf => inf
  | fin a => fin |a|

/-- Truthiness of a Number: every Number except 0 and NaN. -/
def truthy : JsNum → Bool
  | nan => false
  | inf => true
  | ninf => true
  | fin a => decide (a ≠ 0)

/-- The Number is finite (neither NaN nor an infinity). -/
def isFinite : JsNum → Bool
  | fin _ => true
  | _ => false

end JsNum

/-! ## Values -/

/-- A JavaScript primitive as it can sit in a record field. -/
inductive JsVal where
  | undefined : JsVal
  | null : JsVal
  | bool : Bool → JsVal
  | number : JsNum → JsVal
  | string : String → JsVal
  deriving DecidableEq

namespace JsVal

/-- Truthiness, ToBoolean of JavaScript. -/
def truthy : JsVal → Bool
  | undefined => false
  | null => false
  | bool b => b
  | number n => n.truthy
  | string s => s ≠ ""

/-- The operator `a || b` on primitives. -/
def or (a b : JsVal) : JsVal := if a.truthy then a else b

end JsVal

/-! ## parseFloat -/

/-- White space and line terminators that `parseFloat` skips at the start of a string. -/
def isStrWhiteSpace (c : Char) : Bool :=
  let n := c.toNat
  n = 0x09 || n = 0x0A || n = 0x0B || n = 0x0C || n = 0x0D || n = 0x20 || n = 0xA0 ||
  n = 0x1680 || (0x2000 ≤ n && n ≤ 0x200A) || n = 0x2028 || n = 0x2029 || n = 0x202F ||
  n = 0x205F || n = 0x3000 || n = 0xFEFF

/-- Value of a run of decimal digits. -/
def digitsValue (ds : List Char) : Nat :=
  ds.foldl (fun n c => 10 * n + (c.toNat - 48)) 0

/-- Ten to an integer power, as a rational. -/
def pow10 : Int → ℚ
  | Int.ofNat n => (10 : ℚ) ^ n
  | Int.negSucc n => 1 / (10 : ℚ) ^ (n + 1)

/-- Exponent part `e`, `e+` or `e-` followed by digits; 0 when the text that follows the
mantissa is not a complete exponent part (the longest valid prefix then stops before it). -/
def exponentOf (cs : List Char) : Int :=
  match cs with
  | c :: r =>
    if c = 'e' ∨ c = 'E' then
      match r with
      | '+' :: r1 =>
        let ds := r1.takeWhile Char.isDigit
        if ds = [] then 0 else (digitsValue ds : Int)
      | '-' :: r1 =>
        let ds := r1.takeWhile Char.isDigit
        if ds = [] then 0 else -(digitsValue ds : Int)
      | _ =>
        let ds := r.takeWhile Char.isDigit
        if ds = [] then 0 else (digitsValue ds : Int)
    else 0
  | [] => 0

/-- Unsigned part of a StrDecimalLiteral: `Infinity`, or digits with an optional fraction
and exponent; NaN when no prefix of the text is such a literal. -/
def parseUnsigned (cs : List Char) : JsNum :=
  if "Infinity".toList.isPrefixOf cs then JsNum.inf
  else
    let ip := cs.takeWhile Char.isDigit
    let r1 := cs.dropWhile Char.isDigit
    match r1 with
    | '.' :: r =>
      let fp := r.takeWhile Char.isDigit
      let r2 := r.dropWhile Char.isDigit
      if ip = [] ∧ fp = [] then JsNum.nan
      else JsNum.fin ((digitsValue (ip ++ fp) : ℚ) / (10 : ℚ) ^ fp.length * pow10 (exponentOf r2))
    | _ =>
      if ip = [] then JsNum.nan
      else JsNum.fin ((digitsValue ip : ℚ) * pow10 (exponentOf r1))

/-- The function `parseFloat` applied to a string. -/
def parseFloatStr (s : String) : JsNum :=
  match s.toList.dropWhile isStrWhiteSpace with
  | '-' :: r => (parseUnsigned r).neg
  | '+' :: r => parseUnsigned r
  | cs => parseUnsigned cs

/-- The function `parseFloat`: its argument is converted to a string and parsed. A Number
prints to a literal that parses back to itself; `undefined`, `null`, `true` and `false`
print to words that are not numeric literals. -/
def parseFloat : JsVal → JsNum
  | JsVal.number n => n
  | JsVal.string s => parseFloatStr s
  | _ => JsNum.nan

/-! ## Records -/

/-- A transaction record. `handleAddExpense` and `handleAddIncome` store the form data
(strings) with an `id` and a `type`; an income record has no `category`, `paymentMethod`
or `notes`. -/
structure Transaction where
  id : Int
  type : String
  date : String
  amount : JsVal
  description : String
  category : Option String
  paymentMethod : Option String
  notes : Option String
  deriving DecidableEq

/-- The operator `a || b` where `a` is an optional string field and `b` a string:
an absent or empty `a` is falsy. -/
def strOr (a : Option String) (b : String) : String :=
  match a with
  | some s => if s = "" then b else s
  | none => b

/-- A plain object used as a dictionary from names to Numbers, in insertion order. -/
abbrev Dict := List (String × JsNum)

/-- The read `obj[key]`: `none` is `undefined`. -/
def objGet : Dict → String → Option JsNum
  | [], _ => none
  | (k, v) :: rest, key => if k = key then some v else objGet rest key

/-- The assignment `obj[key] = value`: an existing key keeps its place, a new key is
appended. -/
def objSet : Dict → String → JsNum → Dict
  | [], key, value => [(key, value)]
  | (k, v) :: rest, key, value =>
    if k = key then (k, value) :: rest else (k, v) :: objSet rest key value

/-- The keys `Object.keys(obj)`. An object holds a key once; in a list that repeats a key
only the first binding can be read, and the key is listed once. -/
def objKeys (obj : Dict) : List String := (obj.map Prod.fst).dedup

/-- Budget settings as saved by `BudgetSettings.jsx`. `amount` is the Number in the field
`amount` (NaN when the field is absent, as the subtraction converts `undefined`);
`categoryBudgets` is `none` when the field is absent, and its values are the Numbers that
`BudgetSettings.jsx` stores (`parseFloat` of the form fields). -/
structure BudgetSettings where
  type : JsVal
  period : JsVal
  amount : JsNum
  categoryBudgets : Option Dict

/-- The text of a status message. The template literals are kept as their template and the
Number they format (`toFixed(2)` prints that Number), not as the printed characters. -/
inductive Message where
  /-- A constant string. -/
  | text : String → Message
  /-- The template `Budget exceeded by ${x.toFixed(2)}!`. -/
  | exceededBy : JsNum → Message
  /-- The template `${x.toFixed(2)} remaining in your ${period} budget`. -/
  | remainingIn : JsNum → JsVal → Message
  /-- The template `Budget exceeded in ${n} category(ies)!`. -/
  | exceededIn : Nat → Message
  deriving DecidableEq

/-- One entry of `exceededCategories`. -/
structure ExceededCategory where
  category : String
  exceeded : JsNum
  spent : JsNum
  budget : JsNum
  deriving DecidableEq

/-- The object returned by `checkBudgetStatus`; a field that the returned object literal
does not have is `none`. -/
structure BudgetStatus where
  exceeded : Bool
  remaining : Option JsNum
  exceededCategories : Option (List ExceededCategory)
  message : Message
  deriving DecidableEq

/-! ## Dates -/

/-- Comparison `date >= bound` of a parsed date with a valid instant; an Invalid Date
compares false. -/
def dateGe (date : Option Int) (bound : Int) : Bool :=
  match date with
  | some d => decide (bound ≤ d)
  | none => false

/-- Comparison `date <= bound` of a parsed date with a valid instant; an Invalid Date
compares false. -/
def dateLe (date : Option Int) (bound : Int) : Bool :=
  match date with
  | some d => decide (d ≤ bound)
  | none => false

/-- Number of days in a month of the proleptic Gregorian calendar. -/
def daysInMonth (y m : Nat) : Nat :=
  if m = 2 then (if (y % 4 = 0 ∧ y % 100 ≠ 0) ∨ y % 400 = 0 then 29 else 28)
  else if m = 4 ∨ m = 6 ∨ m = 9 ∨ m = 11 then 30 else 31

/-- Days from 1970-01-01 to the given civil date. -/
def daysFromCivil (y m d : Nat) : Int :=
  let y1 : Int := if m ≤ 2 then (y : Int) - 1 else y
  let era : Int := y1 / 400
  let yoe : Int := y1 - era * 400
  let mp : Int := if m ≤ 2 then (m : Int) + 9 else (m : Int) - 3
  let doy : Int := (153 * mp + 2) / 5 + d - 1
  let doe : Int := yoe * 365 + yoe / 4 - yoe / 100 + doy
  era * 146097 + doe - 719468

/-- The time value of `new Date(s)` for a date-only string `YYYY-MM-DD` naming a day of
the calendar (the form stores such strings): midnight UTC of that day, in milliseconds.
Every other string is left unparsed here; the general theorems take the parser as a
parameter and this one is used on calendar dates only. -/
def isoDate (s : String) : Option Int :=
  match s.toList with
  | [y1, y2, y3, y4, '-', m1, m2, '-', d1, d2] =>
    if [y1, y2, y3, y4, m1, m2, d1, d2].all Char.isDigit then
      let y := digitsValue [y1, y2, y3, y4]
      let m := digitsValue [m1, m2]
      let d := digitsValue [d1, d2]
      if 1 ≤ m ∧ m ≤ 12 ∧ 1 ≤ d ∧ d ≤ daysInMonth y m then
        some (daysFromCivil y m d * 86400000)
      else none
    else none
  | _ => none

/-! ## calculations.js -/

/-- The summand `parseFloat(expense.amount || 0)` of every reducer. -/
def amountOf (t : Transaction) : JsNum :=
  parseFloat (t.amount.or (JsVal.number (JsNum.fin 0)))

/-- `calculateTotalExpenses`: a left fold from 0. -/
def calculateTotalExpenses (expenses : List Transaction) : JsNum :=
  expenses.foldl
    (fun total expense => total.add (parseFloat (expense.amount.or (JsVal.number (JsNum.fin 0)))))
    (JsNum.fin 0)

/-- `calculateTotalIncome`: a left fold from 0. -/
def calculateTotalIncome (income : List Transaction) : JsNum :=
  income.foldl
    (fun total inc => total.add (parseFloat (inc.amount.or (JsVal.number (JsNum.fin 0)))))
    (JsNum.fin 0)

/-- `calculateNetBalance`. -/
def calculateNetBalance (income expenses : List Transaction) : JsNum :=
  let totalIncome := calculateTotalIncome income
  let totalExpenses := calculateTotalExpenses expenses
  totalIncome.sub totalExpenses

/-- Body of the `forEach` of `calculateExpensesByCategory`, on the accumulator object. The
accumulator starts as `{}`: a category that names a property of `Object.prototype`
(`constructor`, `toString`) reads that property on first use and is outside the model. -/
def categoryStep (categoryTotals : Dict) (expense : Transaction) : Dict :=
  let category := strOr expense.category "Uncategorized"
  match objGet categoryTotals category with
  | some v =>
    if v.truthy then
      objSet categoryTotals category
        (v.add (parseFloat (expense.amount.or (JsVal.number (JsNum.fin 0)))))
    else
      objSet categoryTotals category
        (parseFloat (expense.amount.or (JsVal.number (JsNum.fin 0))))
  | none =>
    objSet categoryTotals category (parseFloat (expense.amount.or (JsVal.number (JsNum.fin 0))))

/-- `calculateExpensesByCategory`. -/
def calculateExpensesByCategory (expenses : List Transaction) : Dict :=
  expenses.foldl categoryStep []

/-- Body of the `forEach` of `calculateExpensesByPaymentMethod`; the payment methods that
name a property of `Object.prototype` are outside the model, as for the categories. -/
def paymentStep (paymentTotals : Dict) (expense : Transaction) : Dict :=
  let method := strOr expense.paymentMethod "Unknown"
  match objGet paymentTotals method with
  | some v =>
    if v.truthy then
      objSet paymentTotals method
        (v.add (parseFloat (expense.amount.or (JsVal.number (JsNum.fin 0)))))
    else
      objSet paymentTotals method
        (parseFloat (expense.amount.or (JsVal.number (JsNum.fin 0))))
  | none =>
    objSet paymentTotals method (parseFloat (expense.amount.or (JsVal.number (JsNum.fin 0))))

/-- `calculateExpensesByPaymentMethod`. -/
def calculateExpensesByPaymentMethod (expenses : List Transaction) : Dict :=
  expenses.foldl paymentStep []

/-- `getWeeklyExpenses`, with the parser of dates and the current instant as parameters. -/
def getWeeklyExpenses (D : String → Option Int) (now : Int) (expenses : List Transaction) :
    JsNum :=
  let today := now
  let weekAgo := today - 7 * 24 * 60 * 60 * 1000
  let weeklyExpenses := expenses.filter (fun expense =>
    let expenseDate := D expense.date
    dateGe expenseDate weekAgo && dateLe expenseDate today)
  calculateTotalExpenses weeklyExpenses

/-- `getMonthlyExpenses`, with the parser of dates and the current instant as parameters. -/
def getMonthlyExpenses (D : String → Option Int) (now : Int) (expenses : List Transaction) :
    JsNum :=
  let today := now
  let monthAgo := today - 30 * 24 * 60 * 60 * 1000
  let monthlyExpenses := expenses.filter (fun expense =>
    let expenseDate := D expense.date
    dateGe expenseDate monthAgo && dateLe expenseDate today)
  calculateTotalExpenses monthlyExpenses

/-- The operator `value || 0` where `value` is a read of a dictionary of Numbers. -/
def numOr (value : Option JsNum) (dflt : JsNum) : JsNum :=
  match value with
  | some v => if v.truthy then v else dflt
  | none => dflt

/-- Body of the `forEach` over `Object.keys(categoryBudgets)` in `checkBudgetStatus`, on the
array `exceededCategories`. A key that reads `undefined` compares false and pushes
nothing. -/
def exceededStep (categoryBudgets categoryExpenses : Dict)
    (exceededCategories : List ExceededCategory) (category : String) : List ExceededCategory :=
  match objGet categoryBudgets category with
  | some budgetAmount =>
    let spent := numOr (objGet categoryExpenses category) (JsNum.fin 0)
    if spent.gt budgetAmount then
      exceededCategories ++
        [{ category := category, exceeded := spent.sub budgetAmount, spent := spent,
           budget := budgetAmount }]
    else exceededCategories
  | none => exceededCategories

/-- `checkBudgetStatus`, with the parser of dates and the current instant as parameters;
`none` is an absent (falsy) `budgetSettings`. The test `type === 'category' &&
categoryBudgets` selects the per-category branch when the type is `'category'` and the
mapping is present; every other case falls through to the last `return`. -/
def checkBudgetStatus (D : String → Option Int) (now : Int)
    (budgetSettings : Option BudgetSettings) (expenses : List Transaction) : BudgetStatus :=
  match budgetSettings with
  | none =>
    { exceeded := false, remaining := some (JsNum.fin 0), exceededCategories := none,
      message := Message.text "No budget set" }
  | some settings =>
    if settings.type = JsVal.string "overall" then
      let totalExpenses :=
        if settings.period = JsVal.string "weekly" then getWeeklyExpenses D now expenses
        else getMonthlyExpenses D now expenses
      let remaining := settings.amount.sub totalExpenses
      let exceeded := remaining.lt (JsNum.fin 0)
      { exceeded := exceeded, remaining := some remaining.abs, exceededCategories := none,
        message :=
          if exceeded then Message.exceededBy remaining.abs
          else Message.remainingIn remaining settings.period }
    else
      match (if settings.type = JsVal.string "category" then settings.categoryBudgets
             else none) with
      | some categoryBudgets =>
        let categoryExpenses := calculateExpensesByCategory
          (if settings.period = JsVal.string "weekly" then
            expenses.filter (fun exp =>
              let expDate := D exp.date
              let weekAgo := now - 7 * 24 * 60 * 60 * 1000
              dateGe expDate weekAgo)
          else
            expenses.filter (fun exp =>
              let expDate := D exp.date
              let monthAgo := now - 30 * 24 * 60 * 60 * 1000
              dateGe expDate monthAgo))
        let exceededCategories :=
          (objKeys categoryBudgets).foldl (exceededStep categoryBudgets categoryExpenses) []
        { exceeded := decide (exceededCategories.length > 0), remaining := none,
          exceededCategories := some exceededCategories,
          message :=
            if exceededCategories.length > 0 then Message.exceededIn exceededCategories.length
            else Message.text "All category budgets are within limits" }
      | none =>
        { exceeded := false, remaining := some (JsNum.fin 0), exceededCategories := none,
          message := Message.text "Invalid budget settings" }

/-! ## Sample records -/

/-- An expense as `AddExpense.jsx` stores it: every field a string taken from the form. -/
def sampleExpense (date amount category : String) : Transaction :=
  { id := 1, type := "expense", date := date, amount := JsVal.string amount,
    description := "lunch", category := some category, paymentMethod := some "Cash",
    notes := some "" }

/-- An income record as `AddIncome.jsx` stores it. -/
def sampleIncome (date amount : String) : Transaction :=
  { id := 2, type := "income", date := date, amount := JsVal.string amount,
    description := "salary", category := none, paymentMethod := none, notes := none }

/-! ## Notions used to state the properties -/

/-- The key under which `calculateExpensesByCategory` counts an expense. -/
def categoryKey (expense : Transaction) : String := strOr expense.category "Uncategorized"

/-- Sum of all values of a dictionary, `Object.values(obj).reduce((a, b) => a + b, 0)`. -/
def sumValues (obj : Dict) : JsNum :=
  obj.foldl (fun acc entry => acc.add entry.2) (JsNum.fin 0)

/-- The grouping step shared by the two `forEach` bodies, for a key function. -/
def groupStep (key : Transaction → String) (totals : Dict) (expense : Transaction) : Dict :=
  match objGet totals (key expense) with
  | some v =>
    if v.truthy then objSet totals (key expense) (v.add (amountOf expense))
    else objSet totals (key expense) (amountOf expense)
  | none => objSet totals (key expense) (amountOf expense)

/-- Four Food expenses; the first and the third carry the non-numeric amount `"abc"`. -/
def mixedFood : List Transaction :=
  [sampleExpense "2024-01-01" "abc" "Food", sampleExpense "2024-01-02" "5" "Food",
   sampleExpense "2024-01-03" "abc" "Food", sampleExpense "2024-01-04" "7" "Food"]

/-- Milliseconds in a day, `24 * 60 * 60 * 1000`. -/
def msPerDay : Int := 86400000

/-- Length in days of a budget period as `checkBudgetStatus` reads it: 7 for `'weekly'`,
30 for everything else. -/
def periodDays (period : JsVal) : Int :=
  if period = JsVal.string "weekly" then 7 else 30

/-- The record is dated within the last `n` days of `now`: its date parses to an instant
`d` with `now - n days <= d <= now`. -/
def withinLastNDays (D : String → Option Int) (now n : Int) (t : Transaction) : Bool :=
  match D t.date with
  | some d => decide (now - n * msPerDay ≤ d ∧ d ≤ now)
  | none => false

/-- The record is dated at or after `now - n days`, with no upper bound. -/
def sinceLastNDays (D : String → Option Int) (now n : Int) (t : Transaction) : Bool :=
  match D t.date with
  | some d => decide (now - n * msPerDay ≤ d)
  | none => false

/-- The value `spent` that the per-category branch of `checkBudgetStatus` computes for a
category: `categoryExpenses[category] || 0` over its period filter. -/
def categorySpent (D : String → Option Int) (now : Int) (period : JsVal)
    (expenses : List Transaction) (category : String) : JsNum :=
  numOr
    (objGet
      (calculateExpensesByCategory
        (if period = JsVal.string "weekly" then
          expenses.filter (fun exp => dateGe (D exp.date) (now - 7 * 24 * 60 * 60 * 1000))
        else
          expenses.filter (fun exp => dateGe (D exp.date) (now - 30 * 24 * 60 * 60 * 1000))))
      category)
    (JsNum.fin 0)

/-- The entry that the `forEach` over the budget keys pushes for a category, if any. -/
def flaggedEntry (categoryBudgets categoryExpenses : Dict) (category : String) :
    Option ExceededCategory :=
  match objGet categoryBudgets category with
  | some budgetAmount =>
    if (numOr (objGet categoryExpenses category) (JsNum.fin 0)).gt budgetAmount then
      some { category := category,
             exceeded := (numOr (objGet categoryExpenses category) (JsNum.fin 0)).sub budgetAmount,
             spent := numOr (objGet categoryExpenses category) (JsNum.fin 0),
             budget := budgetAmount }
    else none
  | none => none

/-- The instant 2024-01-15T00:00:00Z in milliseconds. -/
def jan15 : Int := 1705276800000

/-- An overall budget as `BudgetSettings.jsx` saves it. -/
def overallBudget (period : String) (amount : ℚ) : BudgetSettings :=
  { type := JsVal.string "overall", period := JsVal.string period, amount := JsNum.fin amount,
    categoryBudgets := none }

/-- A per-category budget as `BudgetSettings.jsx` saves it (no field `amount`). -/
def categoryBudget (period : String) (limits : Dict) : BudgetSettings :=
  { type := JsVal.string "category", period := JsVal.string period, amount := JsNum.nan,
    categoryBudgets := some limits }

/-- One Food expense of 50 dated 2024-01-20, five days after `jan15`. -/
def futureFood : List Transaction := [sampleExpense "2024-01-20" "50" "Food"]

/-- Two Food expenses of 20 and 15 dated within the week before `jan15`, and one of 40
dated two months earlier. -/
def januaryFood : List Transaction :=
  [sampleExpense "2024-01-10" "20" "Food", sampleExpense "2024-01-12" "15" "Food",
   sampleExpense "2023-11-01" "40" "Food"]

/-- Four Food expenses around `jan15`: dated exactly 7 days before it (amount 1), exactly on
it (2), 8 days before it (4) and one day after it (8). -/
def boundaryFood : List Transaction :=
  [sampleExpense "2024-01-08" "1" "Food", sampleExpense "2024-01-15" "2" "Food",
   sampleExpense "2024-01-07" "4" "Food", sampleExpense "2024-01-16" "8" "Food"]

/-! ## Date range and recent transactions -/

/-- Truthiness of an optional string argument: `null`, `undefined` (`none`) and the empty
string are falsy. -/
def strTruthy (s : Option String) : Bool :=
  match s with
  | some v => v ≠ ""
  | none => false

/-- Comparison `x >= y` of two `Date` objects by their time values; false as soon as one
of them is an Invalid Date. -/
def timeGe (x y : Option Int) : Bool :=
  match x, y with
  | some a, some b => decide (b ≤ a)
  | _, _ => false

/-- Comparison `x <= y` of two `Date` objects by their time values; false as soon as one
of them is an Invalid Date. -/
def timeLe (x y : Option Int) : Bool :=
  match x, y with
  | some a, some b => decide (a ≤ b)
  | _, _ => false

/-- `filterByDateRange`, with the parser of dates as a parameter. The bounds are optional
strings (`none` is `null` or `undefined`). -/
def filterByDateRange (D : String → Option Int) (transactions : List Transaction)
    (startDate endDate : Option String) : List Transaction :=
  if !strTruthy startDate && !strTruthy endDate then transactions
  else
    transactions.filter (fun transaction =>
      let transactionDate := D transaction.date
      let start := if strTruthy startDate then D (startDate.getD "") else D "1900-01-01"
      let endD := if strTruthy endDate then D (endDate.getD "") else D "2100-12-31"
      timeGe transactionDate start && timeLe transactionDate endD)

/-- The difference `x - y` of two `Date` objects: the difference of the time values, NaN
as soon as one of them is an Invalid Date. -/
def dateDiff (x y : Option Int) : JsNum :=
  match x, y with
  | some a, some b => JsNum.fin ((a - b : Int) : ℚ)
  | _, _ => JsNum.nan

/-- Insertion step of the sort: `a` goes after every leading element that the comparator
puts before it (`cmp a b > 0`), and before the first other one; a NaN result counts as 0. -/
def sortInsert {α : Type} (cmp : α → α → JsNum) (a : α) : List α → List α
  | [] => [a]
  | b :: l => if (cmp a b).gt (JsNum.fin 0) then b :: sortInsert cmp a l else a :: b :: l

/-- `Array.prototype.sort(cmp)`. The sort is stable; for a comparator that is consistent on
the elements the result is the one stably sorted arrangement, which this insertion sort
computes. For an inconsistent comparator (one that returns NaN on some pairs only) the
order is left to the engine, and this definition is one admissible outcome. -/
def jsSort {α : Type} (cmp : α → α → JsNum) : List α → List α
  | [] => []
  | a :: l => sortInsert cmp a (jsSort cmp l)

/-- `getRecentTransactions`, with the parser of dates as a parameter; `count` is `none`
when the argument is omitted (default 5), and a count is a natural number. -/
def getRecentTransactions (D : String → Option Int) (expenses income : List Transaction)
    (count : Option Nat) : List Transaction :=
  let allTransactions := expenses ++ income
  let sorted := jsSort (fun a b => dateDiff (D b.date) (D a.date)) allTransactions
  sorted.take (count.getD 5)

/-- The record's date parses to an instant `d` with `a <= d <= b`. -/
def inRange (D : String → Option Int) (a b : Int) (t : Transaction) : Bool :=
  match D t.date with
  | some d => decide (a ≤ d ∧ d ≤ b)
  | none => false

/-- The time value of `new Date('1900-01-01')`, the default start of `filterByDateRange`. -/
def farPast : Int := -2208988800000

/-- The time value of `new Date('2100-12-31')`, the default end of `filterByDateRange`. -/
def farFuture : Int := 4133894400000

/-- Record `a` is dated no earlier than record `b` (both dates parse). -/
def notEarlier (D : String → Option Int) (a b : Transaction) : Prop :=
  ∃ x y, D a.date = some x ∧ D b.date = some y ∧ y ≤ x

/-- Ten records, six expenses and four income records, in no date order. -/
def tenExpenses : List Transaction :=
  [sampleExpense "2024-01-03" "3" "Food", sampleExpense "2024-01-09" "9" "Food",
   sampleExpense "2024-01-01" "1" "Food", sampleExpense "2024-01-07" "7" "Food",
   sampleExpense "2024-01-05" "5" "Food", sampleExpense "2024-01-10" "10" "Food"]

/-- Four income records, one of them dated like an expense of `tenExpenses`. -/
def fourIncome : List Transaction :=
  [sampleIncome "2024-01-08" "8", sampleIncome "2024-01-02" "2",
   sampleIncome "2024-01-09" "90", sampleIncome "2024-01-04" "4"]

/-- An expense whose date is not a date. -/
def undatedFood : Transaction := sampleExpense "soon" "50" "Food"

/-! ## ExportData.jsx -/

/-- The double quote character. -/
def dquote : Char := Char.ofNat 34

/-- The replacement of every double quote by two, on the characters of a string. -/
def doubleQuotes : List Char → List Char
  | [] => []
  | c :: r => if c = dquote then dquote :: dquote :: doubleQuotes r else c :: doubleQuotes r

/-- The template that wraps in double quotes the text with every double quote doubled
(`replace` with the global pattern of one double quote). -/
def quoteField (s : String) : String :=
  String.singleton dquote ++ String.mk (doubleQuotes s.toList) ++ String.singleton dquote

/-- The string that `Array.prototype.join` writes for an element: empty for `undefined` and
`null`, the string itself, and the printed form of a boolean or a Number. How a Number
prints is a parameter. -/
def joinItem (showNum : JsNum → String) : JsVal → String
  | JsVal.undefined => ""
  | JsVal.null => ""
  | JsVal.bool b => if b then "true" else "false"
  | JsVal.number n => showNum n
  | JsVal.string s => s

/-- The seven elements of the array that `exportToCSV` joins for an expense. An absent
category or payment method joins as the empty string; empty or absent notes are written
as the empty string, other notes quoted. -/
def expenseFields (showNum : JsNum → String) (expense : Transaction) : List String :=
  [ "Expense",
    expense.date,
    joinItem showNum expense.amount,
    quoteField expense.description,
    expense.category.getD "",
    expense.paymentMethod.getD "",
    if strTruthy expense.notes then quoteField (expense.notes.getD "") else "" ]

/-- The seven elements of the array that `exportToCSV` joins for an income record. -/
def incomeFields (showNum : JsNum → String) (inc : Transaction) : List String :=
  [ "Income",
    inc.date,
    joinItem showNum inc.amount,
    quoteField inc.description,
    "",
    "",
    "" ]

/-- The header line of the export, with its line feed. -/
def csvHeader : String := "Type,Date,Amount,Description,Category,Payment Method,Notes\n"

/-- `exportToCSV`: the text handed to the `Blob`, or `none` when both lists are empty (an
alert is shown and nothing is exported). The download itself is not modelled. -/
def exportToCSV (showNum : JsNum → String) (expenses income : List Transaction) :
    Option String :=
  if expenses.length = 0 ∧ income.length = 0 then none
  else
    let csvContent := csvHeader
    let csvContent := expenses.foldl
      (fun csv expense => csv ++ (String.intercalate "," (expenseFields showNum expense) ++ "\n"))
      csvContent
    let csvContent := income.foldl
      (fun csv inc => csv ++ (String.intercalate "," (incomeFields showNum inc) ++ "\n"))
      csvContent
    some csvContent

/-- Where the reader of a CSV record stands: outside quotes, inside a quoted field, or
inside a quoted field just after a double quote (which either closes the field or is the
first half of a doubled quote). -/
inductive CsvMode where
  | plain : CsvMode
  | quoted : CsvMode
  | quoteSeen : CsvMode
  deriving DecidableEq

/-- Reading of one CSV record by the standard rules: fields are separated by commas, a
field may be enclosed in double quotes, and inside the quotes a doubled double quote
stands for one. `cur` is the field being read, `done` the fields already read. -/
def csvRead : CsvMode → List Char → List String → List Char → List String
  | _, cur, done, [] => done ++ [String.mk cur]
  | CsvMode.plain, cur, done, c :: rest =>
    if c = ',' then csvRead CsvMode.plain [] (done ++ [String.mk cur]) rest
    else if c = dquote then csvRead CsvMode.quoted cur done rest
    else csvRead CsvMode.plain (cur ++ [c]) done rest
  | CsvMode.quoted, cur, done, c :: rest =>
    if c = dquote then csvRead CsvMode.quoteSeen cur done rest
    else csvRead CsvMode.quoted (cur ++ [c]) done rest
  | CsvMode.quoteSeen, cur, done, c :: rest =>
    if c = dquote then csvRead CsvMode.quoted (cur ++ [dquote]) done rest
    else if c = ',' then csvRead CsvMode.plain [] (done ++ [String.mk cur]) rest
    else csvRead CsvMode.plain (cur ++ [c]) done rest

/-- The fields of one CSV record. -/
def parseCsvRecord (row : String) : List String :=
  csvRead CsvMode.plain [] [] row.toList

/-- Removal of the first and the last character of a text. -/
def stripEnds (cs : List Char) : List Char := cs.tail.dropLast

/-- Replacement of every doubled double quote by one, from left to right. -/
def undoubleQuotes : List Char → List Char
  | [] => []
  | [c] => [c]
  | c :: d :: r =>
    if c = dquote ∧ d = dquote then dquote :: undoubleQuotes r
    else c :: undoubleQuotes (d :: r)

/-- Reading back a quoted field: the enclosing quotes are removed and every doubled
double quote becomes one. -/
def unquoteField (s : String) : String :=
  String.mk (undoubleQuotes (stripEnds s.toList))

/-- The text `He said "hi"`. -/
def heSaidHi : String :=
  "He said " ++ String.singleton dquote ++ "hi" ++ String.singleton dquote

/-- An expense in the custom category `Food, Drinks`, with a description that holds a
comma and double quotes. -/
def commaCategoryExpense : Transaction :=
  { id := 3, type := "expense", date := "2024-01-01", amount := JsVal.string "20",
    description := heSaidHi ++ ", twice", category := some "Food, Drinks",
    paymentMethod := some "Cash", notes := some "" }

/-- An expense in a default category, with a description and notes that hold a comma and
double quotes. -/
def quotedTextExpense : Transaction :=
  { id := 4, type := "expense", date := "2024-01-01", amount := JsVal.string "20",
    description := heSaidHi ++ ", twice", category := some "Food",
    paymentMethod := some "Cash", notes := some ("a, " ++ heSaidHi) }

/-- The text holds neither a comma nor a double quote. -/
def csvSafe (s : String) : Prop :=
  ∀ c ∈ s.toList, c ≠ ',' ∧ c ≠ dquote

/-- The texts of a list one after another. -/
def concatAll : List String → String
  | [] => ""
  | r :: rs => r ++ concatAll rs

/-! ## App.jsx: the category list -/

/-- `getDefaultCategories`. -/
def getDefaultCategories : List String :=
  ["Food", "Transportation", "Entertainment", "Groceries", "Miscellaneous"]

/-- `handleAddCategory`, as a function of the state `categories`: the new list that the
handler sets (and copies into the saved user data), or the same list when it sets
nothing. -/
def handleAddCategory (categories : List String) (newCategory : String) : List String :=
  if !categories.contains newCategory then
    let newCategories := categories ++ [newCategory]
    newCategories
  else categories

/-- `handleDeleteCategory`, as a function of the state `categories`. -/
def handleDeleteCategory (categories : List String) (categoryToDelete : String) :
    List String :=
  let defaultCategories := getDefaultCategories
  if defaultCategories.contains categoryToDelete then categories
  else
    let newCategories := categories.filter (fun cat => cat != categoryToDelete)
    newCategories

/-- A call of one of the two category handlers. -/
inductive CategoryAction where
  | add : String → CategoryAction
  | delete : String → CategoryAction

/-- The state `categories` after one handler call. -/
def applyCategoryAction (categories : List String) : CategoryAction → List String
  | CategoryAction.add newCategory => handleAddCategory categories newCategory
  | CategoryAction.delete categoryToDelete => handleDeleteCategory categories categoryToDelete

/-- The state `categories` after a sequence of handler calls (each call sees the state the
previous one set), starting from the five default categories that `handleSetupComplete`
sets. -/
def runCategoryActions (actions : List CategoryAction) : List String :=
  actions.foldl applyCategoryAction getDefaultCategories

/-! ## Analytics.jsx -/

namespace JsNum

/-- Multiplication of two Numbers. -/
def mul : JsNum → JsNum → JsNum
  | nan, _ => nan
  | _, nan => nan
  | inf, inf => inf
  | inf, ninf => ninf
  | ninf, inf => ninf
  | ninf, ninf => inf
  | inf, fin b => if b = 0 then nan else if 0 < b then inf else ninf
  | ninf, fin b => if b = 0 then nan else if 0 < b then ninf else inf
  | fin a, inf => if a = 0 then nan else if 0 < a then inf else ninf
  | fin a, ninf => if a = 0 then nan else if 0 < a then ninf else inf
  | fin a, fin b => fin (a * b)

/-- Division of two Numbers. The sign of zero is not modelled: a zero divisor is +0. -/
def div : JsNum → JsNum → JsNum
  | nan, _ => nan
  | _, nan => nan
  | inf, inf => nan
  | inf, ninf => nan
  | ninf, inf => nan
  | ninf, ninf => nan
  | inf, fin b => if 0 ≤ b then inf else ninf
  | ninf, fin b => if 0 ≤ b then ninf else inf
  | fin _, inf => fin 0
  | fin _, ninf => fin 0
  | fin a, fin b =>
    if b = 0 then (if a = 0 then nan else if 0 < a then inf else ninf) else fin (a / b)

end JsNum

/-- The value of a field `percentage`: a Number, or the string that `toFixed(1)` prints
for a Number (kept as that Number). -/
inductive Percentage where
  | number : JsNum → Percentage
  | fixed1 : JsNum → Percentage
  deriving DecidableEq

/-- The expression
`totalExpenses > 0 ? ((amount / totalExpenses) * 100).toFixed(1) : 0`. -/
def percentageOf (amount totalExpenses : JsNum) : Percentage :=
  if totalExpenses.gt (JsNum.fin 0) then
    Percentage.fixed1 ((amount.div totalExpenses).mul (JsNum.fin 100))
  else Percentage.number (JsNum.fin 0)

/-- An element of `categoryPercentages`. -/
structure CategoryShare where
  category : String
  amount : JsNum
  percentage : Percentage
  deriving DecidableEq

/-- An element of `paymentPercentages`. -/
structure PaymentShare where
  method : String
  amount : JsNum
  percentage : Percentage
  deriving DecidableEq

/-- `getFilteredExpenses` of `Analytics`, for the state `timePeriod`. -/
def getFilteredExpenses (D : String → Option Int) (now : Int) (timePeriod : String)
    (expenses : List Transaction) : List Transaction :=
  if timePeriod = "weekly" then
    let weekAgo := now - 7 * 24 * 60 * 60 * 1000
    expenses.filter (fun exp => dateGe (D exp.date) weekAgo)
  else if timePeriod = "monthly" then
    let monthAgo := now - 30 * 24 * 60 * 60 * 1000
    expenses.filter (fun exp => dateGe (D exp.date) monthAgo)
  else expenses

/-- `categoryPercentages` of `Analytics`, from the filtered expenses: the entries of the
category mapping with their percentage, sorted by amount, largest first. -/
def categoryPercentages (filteredExpenses : List Transaction) : List CategoryShare :=
  let totalExpenses := calculateTotalExpenses filteredExpenses
  let expensesByCategory := calculateExpensesByCategory filteredExpenses
  jsSort (fun a b => b.amount.sub a.amount)
    (expensesByCategory.map (fun entry =>
      { category := entry.1, amount := entry.2,
        percentage := percentageOf entry.2 totalExpenses }))

/-- `paymentPercentages` of `Analytics`, from the filtered expenses. -/
def paymentPercentages (filteredExpenses : List Transaction) : List PaymentShare :=
  let totalExpenses := calculateTotalExpenses filteredExpenses
  let expensesByPayment := calculateExpensesByPaymentMethod filteredExpenses
  jsSort (fun a b => b.amount.sub a.amount)
    (expensesByPayment.map (fun entry =>
      { method := entry.1, amount := entry.2,
        percentage := percentageOf entry.2 totalExpenses }))

/-- Two expenses whose amounts cancel: Food 5 and a Transportation refund of -5. -/
def cancellingExpenses : List Transaction :=
  [sampleExpense "2024-01-01" "5" "Food", sampleExpense "2024-01-02" "-5" "Transportation"]

/-! ## Further notions and samples -/

/-- An expense given by date, numeric amount and category only, as in the worked examples
of the specification; the fields that the budget functions do not read are left blank. -/
def numberExpense (date : String) (amount : ℚ) (category : String) : Transaction :=
  { id := 0, type := "expense", date := date, amount := JsVal.number (JsNum.fin amount),
    description := "", category := some category, paymentMethod := none, notes := none }

/-- The instant 2024-01-01T00:00:00Z in milliseconds. -/
def jan1 : Int := 1704067200000

/-- Comparison `x <= y` of two Numbers; false as soon as one side is NaN. -/
def JsNum.le : JsNum → JsNum → Bool
  | JsNum.nan, _ => false
  | _, JsNum.nan => false
  | JsNum.ninf, _ => true
  | _, JsNum.inf => true
  | JsNum.inf, _ => false
  | _, JsNum.ninf => false
  | JsNum.fin a, JsNum.fin b => decide (a ≤ b)

/-- Every record of the list has a non-negative amount: `0 <= parseFloat(amount || 0)`. -/
def NonNegativeAmounts (L : List Transaction) : Prop :=
  ∀ t ∈ L, (JsNum.fin 0).le (amountOf t) = true

instance (L : List Transaction) : Decidable (NonNegativeAmounts L) := by
  unfold NonNegativeAmounts
  infer_instance

/-- Settings whose type is neither `'overall'` nor `'category'`. -/
def yearlyBudget : BudgetSettings :=
  { type := JsVal.string "yearly", period := JsVal.string "monthly", amount := JsNum.fin 40,
    categoryBudgets := none }

/-- Settings of type `'category'` without the field `categoryBudgets`. -/
def categoryBudgetWithoutLimits : BudgetSettings :=
  { type := JsVal.string "category", period := JsVal.string "monthly", amount := JsNum.nan,
    categoryBudgets := none }

/-- The list under "Top Spending Categories" of `Analytics`:
`categoryPercentages.slice(0, 3)`. -/
def topSpendingCategories (filteredExpenses : List Transaction) : List CategoryShare :=
  (categoryPercentages filteredExpenses).take 3

/-- Five expenses in four categories; the Transportation group holds the non-numeric
amount `"abc"`, so its group value is NaN. -/
def nanGroupExpenses : List Transaction :=
  [sampleExpense "2024-01-01" "1" "Food", sampleExpense "2024-01-02" "20" "Transportation",
   sampleExpense "2024-01-03" "abc" "Transportation",
   sampleExpense "2024-01-04" "100" "Entertainment",
   sampleExpense "2024-01-05" "200" "Groceries"]

/-! ## Arrays as mutable objects -/

/-- The arrays of transactions that exist at a point of an execution. An array is known by
its reference, its index in this list; two variables that hold the same reference are the
same array. -/
structure Heap where
  arrays : List (List Transaction)

namespace Heap

/-- The records that the array of a reference holds. -/
def read (h : Heap) (r : Nat) : List Transaction := h.arrays.getD r []

/-- Creation of a new array (array literal with spread, `filter`, `slice`): the heap with
the new array, and its reference. -/
def alloc (h : Heap) (xs : List Transaction) : Heap × Nat :=
  ({ arrays := h.arrays ++ [xs] }, h.arrays.length)

/-- Replacement of the content of an existing array (`sort` works in place). -/
def write (h : Heap) (r : Nat) (xs : List Transaction) : Heap :=
  { arrays := h.arrays.set r xs }

end Heap

/-- `getRecentTransactions` on arrays in the heap: the spread builds a new array, `sort`
reorders that array in place, `slice` builds the array that is returned. -/
def getRecentTransactionsH (D : String → Option Int) (h : Heap) (expenses income : Nat)
    (count : Option Nat) : Heap × Nat :=
  let a := h.alloc (h.read expenses ++ h.read income)
  let allTransactions := a.2
  let h2 := a.1.write allTransactions
    (jsSort (fun x y => dateDiff (D y.date) (D x.date)) (a.1.read allTransactions))
  h2.alloc ((h2.read allTransactions).take (count.getD 5))

/-- `filterByDateRange` on an array in the heap: without bounds the argument itself is
returned, otherwise `filter` builds a new array. -/
def filterByDateRangeH (D : String → Option Int) (h : Heap) (transactions : Nat)
    (startDate endDate : Option String) : Heap × Nat :=
  if !strTruthy startDate && !strTruthy endDate then (h, transactions)
  else
    h.alloc ((h.read transactions).filter (fun transaction =>
      let transactionDate := D transaction.date
      let start := if strTruthy startDate then D (startDate.getD "") else D "1900-01-01"
      let endD := if strTruthy endDate then D (endDate.getD "") else D "2100-12-31"
      timeGe transactionDate start && timeLe transactionDate endD))

/-- `calculateExpensesByCategory` on an array in the heap: `forEach` reads the array and
fills an object, no array is created or changed. -/
def calculateExpensesByCategoryH (h : Heap) (expenses : Nat) : Heap × Dict :=
  (h, (h.read expenses).foldl categoryStep [])

/-- `getWeeklyExpenses` on an array in the heap: `filter` builds a new array, `reduce`
reads it. -/
def getWeeklyExpensesH (D : String → Option Int) (now : Int) (h : Heap) (expenses : Nat) :
    Heap × JsNum :=
  let a := h.alloc ((h.read expenses).filter (fun expense =>
    dateGe (D expense.date) (now - 7 * 24 * 60 * 60 * 1000) && dateLe (D expense.date) now))
  (a.1, calculateTotalExpenses (a.1.read a.2))

/-- `getMonthlyExpenses` on an array in the heap. -/
def getMonthlyExpensesH (D : String → Option Int) (now : Int) (h : Heap) (expenses : Nat) :
    Heap × JsNum :=
  let a := h.alloc ((h.read expenses).filter (fun expense =>
    dateGe (D expense.date) (now - 30 * 24 * 60 * 60 * 1000) && dateLe (D expense.date) now))
  (a.1, calculateTotalExpenses (a.1.read a.2))

/-- `checkBudgetStatus` on an array in the heap. The array `exceededCategories` that the
per-category branch builds holds no transactions and is kept out of the heap. -/
def checkBudgetStatusH (D : String → Option Int) (now : Int) (h : Heap)
    (budgetSettings : Option BudgetSettings) (expenses : Nat) : Heap × BudgetStatus :=
  match budgetSettings with
  | none =>
    (h, { exceeded := false, remaining := some (JsNum.fin 0), exceededCategories := none,
          message := Message.text "No budget set" })
  | some settings =>
    if settings.type = JsVal.string "overall" then
      let t :=
        if settings.period = JsVal.string "weekly" then getWeeklyExpensesH D now h expenses
        else getMonthlyExpensesH D now h expenses
      let totalExpenses := t.2
      let remaining := settings.amount.sub totalExpenses
      let exceeded := remaining.lt (JsNum.fin 0)
      (t.1, { exceeded := exceeded, remaining := some remaining.abs, exceededCategories := none,
              message :=
                if exceeded then Message.exceededBy remaining.abs
                else Message.remainingIn remaining settings.period })
    else
      match (if settings.type = JsVal.string "category" then settings.categoryBudgets
             else none) with
      | some categoryBudgets =>
        let a :=
          if settings.period = JsVal.string "weekly" then
            h.alloc ((h.read expenses).filter (fun exp =>
              dateGe (D exp.date) (now - 7 * 24 * 60 * 60 * 1000)))
          else
            h.alloc ((h.read expenses).filter (fun exp =>
              dateGe (D exp.date) (now - 30 * 24 * 60 * 60 * 1000)))
        let g := calculateExpensesByCategoryH a.1 a.2
        let categoryExpenses := g.2
        let exceededCategories :=
          (objKeys categoryBudgets).foldl (exceededStep categoryBudgets categoryExpenses) []
        (g.1, { exceeded := decide (exceededCategories.length > 0), remaining := none,
                exceededCategories := some exceededCategories,
                message :=
                  if exceededCategories.length > 0 then
                    Message.exceededIn exceededCategories.length
                  else Message.text "All category budgets are within limits" })
      | none =>
        (h, { exceeded := false, remaining := some (JsNum.fin 0), exceededCategories := none,
              message := Message.text "Invalid budget settings" })

/-- A heap with two arrays: the expenses of `tenExpenses` at reference 0 and the income
records of `fourIncome` at reference 1. -/
def sampleHeap : Heap := { arrays := [tenExpenses, fourIncome] }

/-! ## localStorage.js -/

/-- What a call of a platform function does: it returns a value or it throws. -/
inductive Outcome (α : Type) where
  | ok : α → Outcome α
  | thrown : Outcome α

/-- The platform functions that `localStorage.js` calls, for values of a type `V`:
`JSON.stringify` (the text, or a throw), `JSON.parse` (the value, where `none` is the value
`null`, or a throw), and whether `localStorage.setItem` throws for a text (storage full)
and `localStorage.getItem` throws (storage not accessible). The text of `stringify` is the
one that `setItem` stores: where `JSON.stringify` returns `undefined` it is the text
`undefined`, which `JSON.parse` rejects. -/
structure Platform (V : Type) where
  stringify : V → Outcome String
  parse : String → Outcome (Option V)
  setItemThrows : String → Bool
  getItemThrows : Bool

/-- The content of `localStorage`: the text stored under each key, if any. -/
abbrev Storage := String → Option String

/-- The key `USER_DATA_KEY`. -/
def USER_DATA_KEY : String := "smartExpenseTrackerData"

/-- The effect of `localStorage.setItem(key, value)` when it does not throw. -/
def setItem (storage : Storage) (key value : String) : Storage :=
  fun k => if k = key then some value else storage k

/-- `getUserData`: the parsed value, or `none` for `null`. A throw inside the `try` is
caught and `null` is returned. -/
def getUserData {V : Type} (P : Platform V) (storage : Storage) : Option V :=
  if P.getItemThrows then none
  else
    match storage USER_DATA_KEY with
    | none => none
    | some data =>
      if data = "" then none
      else
        match P.parse data with
        | Outcome.ok v => v
        | Outcome.thrown => none

/-- `saveUserData`: the boolean returned and the content of the storage after the call. -/
def saveUserData {V : Type} (P : Platform V) (storage : Storage) (userData : V) :
    Bool × Storage :=
  match P.stringify userData with
  | Outcome.ok text =>
    if P.setItemThrows text then (false, storage)
    else (true, setItem storage USER_DATA_KEY text)
  | Outcome.thrown => (false, storage)

/-- The platform on the booleans: `JSON.stringify` and `JSON.parse` on the texts `true`,
`false` and `null`, every other text being rejected here; the storage never throws. -/
def boolPlatform : Platform Bool :=
  { stringify := fun b => Outcome.ok (if b then "true" else "false"),
    parse := fun s =>
      if s = "true" then Outcome.ok (some true)
      else if s = "false" then Outcome.ok (some false)
      else if s = "null" then Outcome.ok none
      else Outcome.thrown,
    setItemThrows := fun _ => false,
    getItemThrows := false }

/-- The empty storage. -/
def emptyStorage : Storage := fun _ => none

/-! ## App.jsx: deleting a transaction -/

/-- The user record that `App` keeps and saves. -/
structure UserData where
  name : String
  currency : String
  isSetupComplete : Bool
  expenses : List Transaction
  income : List Transaction
  categories : List String
  budgetSettings : Option BudgetSettings

/-- The state of `App` while a page is shown (`userData` is then not `null`), and the
record last passed to `saveUserData`. -/
structure AppState where
  currentPage : String
  userData : UserData
  expenses : List Transaction
  income : List Transaction
  categories : List String
  budgetSettings : Option BudgetSettings
  saved : Option UserData

/-- `handleDeleteTransaction`, as a function of the state: the state that the handler
sets. -/
def handleDeleteTransaction (s : AppState) (id : Int) (type : String) : AppState :=
  if type = "expense" then
    let newExpenses := s.expenses.filter (fun exp => exp.id != id)
    let updatedUserData : UserData :=
      { name := s.userData.name, currency := s.userData.currency,
        isSetupComplete := s.userData.isSetupComplete, expenses := newExpenses,
        income := s.userData.income, categories := s.userData.categories,
        budgetSettings := s.userData.budgetSettings }
    { currentPage := s.currentPage, userData := updatedUserData, expenses := newExpenses,
      income := s.income, categories := s.categories, budgetSettings := s.budgetSettings,
      saved := some updatedUserData }
  else
    let newIncome := s.income.filter (fun inc => inc.id != id)
    let updatedUserData : UserData :=
      { name := s.userData.name, currency := s.userData.currency,
        isSetupComplete := s.userData.isSetupComplete, expenses := s.userData.expenses,
        income := newIncome, categories := s.userData.categories,
        budgetSettings := s.userData.budgetSettings }
    { currentPage := s.currentPage, userData := updatedUserData, expenses := s.expenses,
      income := newIncome, categories := s.categories, budgetSettings := s.budgetSettings,
      saved := some updatedUserData }

/-- An expense with a given id. -/
def expenseWithId (id : Int) (amount : String) : Transaction :=
  { id := id, type := "expense", date := "2024-01-01", amount := JsVal.string amount,
    description := "lunch", category := some "Food", paymentMethod := some "Cash",
    notes := some "" }

/-- An income record with a given id. -/
def incomeWithId (id : Int) (amount : String) : Transaction :=
  { id := id, type := "income", date := "2024-01-01", amount := JsVal.string amount,
    description := "salary", category := none, paymentMethod := none, notes := none }

/-- A state with three expenses (ids 11, 12, 13), two income records (ids 12, 21), the
default categories and a weekly budget. -/
def sampleState : AppState :=
  { currentPage := "transactions",
    userData :=
      { name := "Ada", currency := "$", isSetupComplete := true,
        expenses := [expenseWithId 11 "1", expenseWithId 12 "2", expenseWithId 13 "3"],
        income := [incomeWithId 12 "10", incomeWithId 21 "20"],
        categories := getDefaultCategories,
        budgetSettings := some (overallBudget "weekly" 30) },
    expenses := [expenseWithId 11 "1", expenseWithId 12 "2", expenseWithId 13 "3"],
    income := [incomeWithId 12 "10", incomeWithId 21 "20"],
    categories := getDefaultCategories,
    budgetSettings := some (overallBudget "weekly" 30),
    saved := none }

/-! ## Dictionaries -/

theorem objGet_objSet (d : Dict) (k : String) (v : JsNum) (k' : String) :
    objGet (objSet d k v) k' = if k = k' then some v else objGet d k' := by
  induction d with
  | nil => simp [objSet, objGet]
  | cons p rest ih =>
    obtain ⟨a, b⟩ := p
    by_cases hak : a = k
    · subst hak
      by_cases hk : a = k' <;> simp [objSet, objGet, hk]
    · by_cases hk : a = k'
      · subst hk
        simp [objSet, objGet, hak, Ne.symm hak]
      · simp [objSet, objGet, hak, hk, ih]

/-! ## Totals -/

theorem calculateTotalExpenses_snoc (L : List Transaction) (x : Transaction) :
    calculateTotalExpenses (L ++ [x]) = (calculateTotalExpenses L).add (amountOf x) := by
  simp [calculateTotalExpenses, amountOf, List.foldl_append]

theorem calculateTotalIncome_snoc (L : List Transaction) (x : Transaction) :
    calculateTotalIncome (L ++ [x]) = (calculateTotalIncome L).add (amountOf x) := by
  simp [calculateTotalIncome, amountOf, List.foldl_append]

theorem amountOf_number_fin (t : Transaction) (q : ℚ) (h : t.amount = JsVal.number (JsNum.fin q)) :
    amountOf t = JsNum.fin q := by
  unfold amountOf JsVal.or
  rw [h]
  by_cases hq : q = 0
  · simp [JsVal.truthy, JsNum.truthy, hq, parseFloat]
  · simp [JsVal.truthy, JsNum.truthy, hq, parseFloat]

/-- C1: the total of the empty list is 0, and the total of a non-empty list is the total of
the list without its last element plus the amount of the last element (the summand
`parseFloat(amount || 0)`, which is the amount itself when the amount is a finite Number);
for `calculateTotalExpenses` and for `calculateTotalIncome`. -/
theorem total_nil_and_last :
    calculateTotalExpenses [] = JsNum.fin 0 ∧ calculateTotalIncome [] = JsNum.fin 0 ∧
    (∀ (L : List Transaction) (h : L ≠ []),
      calculateTotalExpenses L
          = (calculateTotalExpenses L.dropLast).add (amountOf (L.getLast h)) ∧
      calculateTotalIncome L
          = (calculateTotalIncome L.dropLast).add (amountOf (L.getLast h))) ∧
    (∀ (t : Transaction) (q : ℚ), t.amount = JsVal.number (JsNum.fin q) →
      amountOf t = JsNum.fin q) := by
  refine ⟨rfl, rfl, ?_, amountOf_number_fin⟩
  intro L h
  constructor
  · conv_lhs => rw [← List.dropLast_append_getLast h]
    exact calculateTotalExpenses_snoc _ _
  · conv_lhs => rw [← List.dropLast_append_getLast h]
    exact calculateTotalIncome_snoc _ _

/-- C1 at a concrete list: amounts 20 and 15, the second one last. -/
theorem total_nil_and_last_witness :
    calculateTotalExpenses [sampleExpense "2024-01-01" "20" "Food",
        sampleExpense "2024-01-02" "15" "Food"]
      = (calculateTotalExpenses [sampleExpense "2024-01-01" "20" "Food"]).add
          (amountOf (sampleExpense "2024-01-02" "15" "Food")) :=
  (total_nil_and_last.2.2.1
    [sampleExpense "2024-01-01" "20" "Food", sampleExpense "2024-01-02" "15" "Food"]
    (by simp)).1

/-! ## Net balance -/

theorem JsNum.sub_lt_zero_of_lt (x y : JsNum) (h : x.lt y = true) :
    (x.sub y).lt (JsNum.fin 0) = true := by
  cases x <;> cases y <;> simp_all [JsNum.lt, JsNum.sub, JsNum.add, JsNum.neg]

/-- C2: the net balance is the income total minus the expense total, and it is negative
whenever the expense total exceeds the income total. -/
theorem calculateNetBalance_eq (income expenses : List Transaction) :
    calculateNetBalance income expenses
      = (calculateTotalIncome income).sub (calculateTotalExpenses expenses) ∧
    ((calculateTotalIncome income).lt (calculateTotalExpenses expenses) = true →
      (calculateNetBalance income expenses).lt (JsNum.fin 0) = true) :=
  ⟨rfl, fun h => JsNum.sub_lt_zero_of_lt _ _ h⟩

/-- C2 at a concrete input: income 30, expenses 50, balance -20. -/
theorem calculateNetBalance_eq_witness :
    (calculateTotalIncome [sampleIncome "2024-01-01" "30"]).lt
        (calculateTotalExpenses [sampleExpense "2024-01-02" "50" "Food"]) = true ∧
    (calculateNetBalance [sampleIncome "2024-01-01" "30"]
        [sampleExpense "2024-01-02" "50" "Food"]).lt (JsNum.fin 0) = true :=
  ⟨by decide!,
   (calculateNetBalance_eq [sampleIncome "2024-01-01" "30"]
      [sampleExpense "2024-01-02" "50" "Food"]).2 (by decide!)⟩

/-! ## Grouping -/

theorem categoryStep_eq : categoryStep = groupStep categoryKey := rfl

/-- C3 on the code: for the four Food expenses with the amounts "abc", 5, "abc", 7, all
paid in cash, the mapping of `calculateExpensesByCategory` is Food: 7 and the mapping of
`calculateExpensesByPaymentMethod` is Cash: 7, so the values of each add up to 7, while
`calculateTotalExpenses` of the same list is NaN. -/
theorem groupTotals_mixed_amounts :
    calculateExpensesByCategory mixedFood = [("Food", JsNum.fin 7)] ∧
    calculateExpensesByPaymentMethod mixedFood = [("Cash", JsNum.fin 7)] ∧
    sumValues (calculateExpensesByCategory mixedFood) = JsNum.fin 7 ∧
    sumValues (calculateExpensesByPaymentMethod mixedFood) = JsNum.fin 7 ∧
    calculateTotalExpenses mixedFood = JsNum.nan ∧
    sumValues (calculateExpensesByCategory mixedFood) ≠ calculateTotalExpenses mixedFood := by
  decide!

/-- C4 on the code: for the four Food expenses with the amounts "abc", 5, "abc", 7 the
value under "Food" is NaN after the first record, 5 after the second (the test
`if (categoryTotals[category])` is false on NaN and the accumulator is overwritten), NaN
after the third and 7 after the fourth. The value stored, 7, is neither the total of the
four amounts as `calculateTotalExpenses` computes it (NaN) nor the total of the two
numeric ones (12). The mapping by payment method stores 7 under "Cash" likewise. -/
theorem groupValue_nan_overwritten :
    calculateExpensesByCategory (mixedFood.take 1) = [("Food", JsNum.nan)] ∧
    calculateExpensesByCategory (mixedFood.take 2) = [("Food", JsNum.fin 5)] ∧
    calculateExpensesByCategory (mixedFood.take 3) = [("Food", JsNum.nan)] ∧
    objGet (calculateExpensesByCategory mixedFood) "Food" = some (JsNum.fin 7) ∧
    objGet (calculateExpensesByPaymentMethod mixedFood) "Cash" = some (JsNum.fin 7) ∧
    calculateTotalExpenses (mixedFood.filter (fun e => decide (categoryKey e = "Food")))
      = JsNum.nan ∧
    calculateTotalExpenses (mixedFood.filter (fun e => (amountOf e).isFinite))
      = JsNum.fin 12 ∧
    objGet (calculateExpensesByCategory mixedFood) "Food" ≠
      some (calculateTotalExpenses
        (mixedFood.filter (fun e => decide (categoryKey e = "Food")))) := by
  decide!

/-- A record whose amount is falsy (absent, null, empty string, 0) is summed as 0. -/
theorem amountOf_falsy (t : Transaction) (h : t.amount.truthy = false) :
    amountOf t = JsNum.fin 0 := by
  simp [amountOf, JsVal.or, h, parseFloat]

/-- C5 on the code: the amount "abc" is not summed as 0. The total of the two records with
amounts "20" and "abc" is NaN, while the total without the second record is 20; the same
for the income total and for the group value. -/
theorem nonNumeric_amount_total :
    calculateTotalExpenses
      [sampleExpense "2024-01-01" "20" "Food", sampleExpense "2024-01-02" "abc" "Food"]
      = JsNum.nan ∧
    calculateTotalExpenses [sampleExpense "2024-01-01" "20" "Food"] = JsNum.fin 20 ∧
    calculateTotalIncome [sampleIncome "2024-01-01" "20", sampleIncome "2024-01-02" "abc"]
      = JsNum.nan ∧
    calculateTotalIncome [sampleIncome "2024-01-01" "20"] = JsNum.fin 20 ∧
    calculateExpensesByCategory
      [sampleExpense "2024-01-01" "20" "Food", sampleExpense "2024-01-02" "abc" "Food"]
      = [("Food", JsNum.nan)] ∧
    calculateExpensesByCategory [sampleExpense "2024-01-01" "20" "Food"]
      = [("Food", JsNum.fin 20)] := by
  decide!

/-! ## Period filters -/

theorem weekly_filter_eq (D : String → Option Int) (now : Int) :
    (fun expense : Transaction =>
        dateGe (D expense.date) (now - 7 * 24 * 60 * 60 * 1000) && dateLe (D expense.date) now)
      = withinLastNDays D now 7 := by
  funext e
  unfold withinLastNDays msPerDay
  cases D e.date with
  | none => simp [dateGe]
  | some d => simp [dateGe, dateLe, Bool.decide_and]

theorem monthly_filter_eq (D : String → Option Int) (now : Int) :
    (fun expense : Transaction =>
        dateGe (D expense.date) (now - 30 * 24 * 60 * 60 * 1000) && dateLe (D expense.date) now)
      = withinLastNDays D now 30 := by
  funext e
  unfold withinLastNDays msPerDay
  cases D e.date with
  | none => simp [dateGe]
  | some d => simp [dateGe, dateLe, Bool.decide_and]

theorem getWeeklyExpenses_eq (D : String → Option Int) (now : Int) (es : List Transaction) :
    getWeeklyExpenses D now es = calculateTotalExpenses (es.filter (withinLastNDays D now 7)) := by
  unfold getWeeklyExpenses
  simp only []
  rw [weekly_filter_eq]

theorem getMonthlyExpenses_eq (D : String → Option Int) (now : Int) (es : List Transaction) :
    getMonthlyExpenses D now es
      = calculateTotalExpenses (es.filter (withinLastNDays D now 30)) := by
  unfold getMonthlyExpenses
  simp only []
  rw [monthly_filter_eq]

/-- C6 on the code: the per-category branch keeps an expense dated after the reference
instant, the overall branch does not. With one Food expense of 50 dated 2024-01-20 and the
reference instant 2024-01-15, `getWeeklyExpenses` and `getMonthlyExpenses` are 0 and an
overall budget of 30 is not exceeded, while the budget Food: 30 is reported exceeded with
spent = 50. -/
theorem perCategory_keeps_future_expense :
    isoDate "2024-01-20" = some (jan15 + 5 * msPerDay) ∧
    getWeeklyExpenses isoDate jan15 futureFood = JsNum.fin 0 ∧
    getMonthlyExpenses isoDate jan15 futureFood = JsNum.fin 0 ∧
    checkBudgetStatus isoDate jan15 (some (overallBudget "monthly" 30)) futureFood
      = { exceeded := false, remaining := some (JsNum.fin 30), exceededCategories := none,
          message := Message.remainingIn (JsNum.fin 30) (JsVal.string "monthly") } ∧
    checkBudgetStatus isoDate jan15
        (some (categoryBudget "monthly" [("Food", JsNum.fin 30)])) futureFood
      = { exceeded := true, remaining := none,
          exceededCategories := some [{ category := "Food", exceeded := JsNum.fin 20,
                                        spent := JsNum.fin 50, budget := JsNum.fin 30 }],
          message := Message.exceededIn 1 } ∧
    categorySpent isoDate jan15 (JsVal.string "weekly") futureFood "Food" = JsNum.fin 50 := by
  decide!

/-- The two period filters agree on a list with no record dated after `now`. -/
theorem sinceLastNDays_eq_within (D : String → Option Int) (now n : Int)
    (es : List Transaction) (h : ∀ e ∈ es, ∀ d, D e.date = some d → d ≤ now) :
    es.filter (sinceLastNDays D now n) = es.filter (withinLastNDays D now n) := by
  apply List.filter_congr
  intro e he
  unfold sinceLastNDays withinLastNDays
  cases hd : D e.date with
  | none => rfl
  | some d => simp [h e he d hd]

/-! ## Budget status -/

theorem JsNum.sub_self_not_lt (x : JsNum) : (x.sub x).lt (JsNum.fin 0) = false := by
  cases x <;> simp [JsNum.lt, JsNum.sub, JsNum.add, JsNum.neg]

theorem overall_totalExpenses (D : String → Option Int) (now : Int) (period : JsVal)
    (es : List Transaction) :
    (if period = JsVal.string "weekly" then getWeeklyExpenses D now es
      else getMonthlyExpenses D now es)
      = calculateTotalExpenses (es.filter (withinLastNDays D now (periodDays period))) := by
  unfold periodDays
  by_cases hp : period = JsVal.string "weekly"
  · simp only [hp, if_true]
    exact getWeeklyExpenses_eq D now es
  · simp only [hp, if_false]
    exact getMonthlyExpenses_eq D now es

/-- C7: for an overall budget, `exceeded` is the test `amount - spent < 0`, where spent is
the total of the expenses dated within the last 7 days (period weekly) or 30 days (period
monthly) of the reference instant; on finite numbers that is `amount - spent < 0` over the
rationals, and spending equal to the limit is not exceeded. -/
theorem overall_exceeded_iff (D : String → Option Int) (now : Int) (settings : BudgetSettings)
    (expenses : List Transaction) (h : settings.type = JsVal.string "overall") :
    (checkBudgetStatus D now (some settings) expenses).exceeded
      = (settings.amount.sub (calculateTotalExpenses
          (expenses.filter (withinLastNDays D now (periodDays settings.period))))).lt
          (JsNum.fin 0) ∧
    (∀ a x : ℚ, settings.amount = JsNum.fin a →
      calculateTotalExpenses
          (expenses.filter (withinLastNDays D now (periodDays settings.period))) = JsNum.fin x →
      ((checkBudgetStatus D now (some settings) expenses).exceeded = true ↔ a - x < 0)) ∧
    (calculateTotalExpenses
          (expenses.filter (withinLastNDays D now (periodDays settings.period)))
        = settings.amount →
      (checkBudgetStatus D now (some settings) expenses).exceeded = false) ∧
    periodDays (JsVal.string "weekly") = 7 ∧ periodDays (JsVal.string "monthly") = 30 := by
  have hex : (checkBudgetStatus D now (some settings) expenses).exceeded
      = (settings.amount.sub (calculateTotalExpenses
          (expenses.filter (withinLastNDays D now (periodDays settings.period))))).lt
          (JsNum.fin 0) := by
    unfold checkBudgetStatus
    simp only [h, if_true]
    rw [overall_totalExpenses]
  refine ⟨hex, ?_, ?_, by decide, by decide⟩
  · intro a x ha hx
    rw [hex, ha, hx]
    simp [JsNum.sub, JsNum.neg, JsNum.add, JsNum.lt]
  · intro heq
    rw [hex, heq]
    exact JsNum.sub_self_not_lt _

/-- C7 at a concrete input: Food expenses of 20 and 15 within the week before 2024-01-15
and a weekly limit of 30 are exceeded; the same expenses with the limit 35 are not. -/
theorem overall_exceeded_iff_witness :
    (overallBudget "weekly" 30).type = JsVal.string "overall" ∧
    (checkBudgetStatus isoDate jan15 (some (overallBudget "weekly" 30)) januaryFood).exceeded
      = true ∧
    (checkBudgetStatus isoDate jan15 (some (overallBudget "weekly" 35)) januaryFood).exceeded
      = false :=
  ⟨rfl,
   ((overall_exceeded_iff isoDate jan15 (overallBudget "weekly" 30) januaryFood rfl).1).trans
     (by decide!),
   by decide!⟩

theorem exceededStep_eq (cb ce : Dict) (acc : List ExceededCategory) (c : String) :
    exceededStep cb ce acc c = acc ++ (flaggedEntry cb ce c).toList := by
  unfold exceededStep flaggedEntry
  cases objGet cb c with
  | none => simp
  | some b =>
    by_cases hgt : (numOr (objGet ce c) (JsNum.fin 0)).gt b = true
    · simp [hgt]
    · simp [hgt]

theorem exceededStep_foldl (cb ce : Dict) (keys : List String) (acc : List ExceededCategory) :
    keys.foldl (exceededStep cb ce) acc = acc ++ keys.filterMap (flaggedEntry cb ce) := by
  induction keys generalizing acc with
  | nil => simp
  | cons c rest ih =>
    rw [List.foldl_cons, ih, exceededStep_eq, List.filterMap_cons]
    cases flaggedEntry cb ce c <;> simp

theorem checkBudgetStatus_category_eq (D : String → Option Int) (now : Int)
    (settings : BudgetSettings) (expenses : List Transaction) (cb : Dict)
    (ht : settings.type = JsVal.string "category") (hcb : settings.categoryBudgets = some cb) :
    checkBudgetStatus D now (some settings) expenses
      = { exceeded := decide
            (((objKeys cb).filterMap (flaggedEntry cb (calculateExpensesByCategory
              (if settings.period = JsVal.string "weekly" then
                expenses.filter (fun exp => dateGe (D exp.date) (now - 7 * 24 * 60 * 60 * 1000))
              else
                expenses.filter
                  (fun exp => dateGe (D exp.date) (now - 30 * 24 * 60 * 60 * 1000)))))).length
              > 0),
          remaining := none,
          exceededCategories := some ((objKeys cb).filterMap (flaggedEntry cb
            (calculateExpensesByCategory
              (if settings.period = JsVal.string "weekly" then
                expenses.filter (fun exp => dateGe (D exp.date) (now - 7 * 24 * 60 * 60 * 1000))
              else
                expenses.filter
                  (fun exp => dateGe (D exp.date) (now - 30 * 24 * 60 * 60 * 1000)))))),
          message :=
            if ((objKeys cb).filterMap (flaggedEntry cb (calculateExpensesByCategory
              (if settings.period = JsVal.string "weekly" then
                expenses.filter (fun exp => dateGe (D exp.date) (now - 7 * 24 * 60 * 60 * 1000))
              else
                expenses.filter
                  (fun exp => dateGe (D exp.date) (now - 30 * 24 * 60 * 60 * 1000)))))).length
              > 0
            then Message.exceededIn ((objKeys cb).filterMap (flaggedEntry cb
              (calculateExpensesByCategory
                (if settings.period = JsVal.string "weekly" then
                  expenses.filter
                    (fun exp => dateGe (D exp.date) (now - 7 * 24 * 60 * 60 * 1000))
                else
                  expenses.filter
                    (fun exp => dateGe (D exp.date) (now - 30 * 24 * 60 * 60 * 1000)))))).length
            else Message.text "All category budgets are within limits" } := by
  unfold checkBudgetStatus
  have hne : ¬ (JsVal.string "category" = JsVal.string "overall") := by decide
  simp only [ht, hne, if_false, if_true, hcb, exceededStep_foldl, List.nil_append]

/-- C8 on the code: with the monthly limit Food: 6 and the four Food expenses with the
amounts "abc", 5, "abc", 7, dated 2024-01-01 to 2024-01-04, at the reference instant
2024-01-15, `checkBudgetStatus` flags Food with spent 7 and exceeded 1. The spending of
the period in Food is not 7: the total of the month that the function's overall branch
computes for the same list, `getMonthlyExpenses`, is NaN, and the two numeric amounts
add up to 12. With the limit 10 the same expenses flag nothing. -/
theorem perCategory_flags_mixed_amounts :
    checkBudgetStatus isoDate jan15 (some (categoryBudget "monthly" [("Food", JsNum.fin 6)]))
        mixedFood
      = { exceeded := true, remaining := none,
          exceededCategories := some [{ category := "Food", exceeded := JsNum.fin 1,
                                        spent := JsNum.fin 7, budget := JsNum.fin 6 }],
          message := Message.exceededIn 1 } ∧
    mixedFood.filter (fun e =>
        decide (categoryKey e = "Food") && withinLastNDays isoDate jan15 30 e) = mixedFood ∧
    getMonthlyExpenses isoDate jan15 mixedFood = JsNum.nan ∧
    calculateTotalExpenses (mixedFood.filter (fun e => (amountOf e).isFinite))
      = JsNum.fin 12 ∧
    checkBudgetStatus isoDate jan15 (some (categoryBudget "monthly" [("Food", JsNum.fin 10)]))
        mixedFood
      = { exceeded := false, remaining := none, exceededCategories := some [],
          message := Message.text "All category budgets are within limits" } := by
  decide!

/-- C9, as stated, fails on "no numeric remainder": with absent settings the returned
object has the field `remaining`, holding the Number 0. -/
theorem noBudget_remaining_counterexample :
    (checkBudgetStatus isoDate jan15 none []).remaining = some (JsNum.fin 0) ∧
    (checkBudgetStatus isoDate jan15 none []).remaining ≠ none := by
  decide!

/-- C9, amended: when `budgetSettings` is absent, `checkBudgetStatus` returns, for every
expense list, exceeded = false, the message 'No budget set' and remaining = 0 (and no list
of exceeded categories). -/
theorem noBudget_status (D : String → Option Int) (now : Int) (expenses : List Transaction) :
    checkBudgetStatus D now none expenses
      = { exceeded := false, remaining := some (JsNum.fin 0), exceededCategories := none,
          message := Message.text "No budget set" } :=
  rfl

/-- C10: `getWeeklyExpenses` is the total of exactly the expenses whose date parses to an
instant d with now - 7 days <= d <= now, `getMonthlyExpenses` the same with 30 days, and an
expense dated after the reference instant, wherever it stands in the list, is not
counted. -/
theorem periodExpenses_spec (D : String → Option Int) (now : Int) (expenses : List Transaction) :
    getWeeklyExpenses D now expenses
      = calculateTotalExpenses (expenses.filter (withinLastNDays D now 7)) ∧
    getMonthlyExpenses D now expenses
      = calculateTotalExpenses (expenses.filter (withinLastNDays D now 30)) ∧
    (∀ (n : Int) (e : Transaction), withinLastNDays D now n e = true ↔
      ∃ d, D e.date = some d ∧ now - n * (24 * 60 * 60 * 1000) ≤ d ∧ d ≤ now) ∧
    (∀ (before after : List Transaction) (e : Transaction) (d : Int),
      D e.date = some d → now < d →
      getWeeklyExpenses D now (before ++ e :: after)
        = getWeeklyExpenses D now (before ++ after) ∧
      getMonthlyExpenses D now (before ++ e :: after)
        = getMonthlyExpenses D now (before ++ after)) := by
  refine ⟨getWeeklyExpenses_eq D now expenses, getMonthlyExpenses_eq D now expenses, ?_, ?_⟩
  · intro n e
    unfold withinLastNDays msPerDay
    cases D e.date with
    | none => simp
    | some d => simp
  · intro before after e d hd hlt
    have hout : ∀ n : Int, withinLastNDays D now n e = false := by
      intro n
      unfold withinLastNDays
      rw [hd]
      simp [hlt]
    rw [getWeeklyExpenses_eq, getWeeklyExpenses_eq, getMonthlyExpenses_eq,
      getMonthlyExpenses_eq]
    simp [List.filter_append, List.filter_cons, hout]

/-- C10 at a concrete input, reference instant 2024-01-15: the expenses dated exactly seven
days earlier and exactly on the instant are counted (1 + 2), the ones dated eight days
earlier and one day later are not; the month counts the first three. -/
theorem periodExpenses_spec_witness :
    getWeeklyExpenses isoDate jan15 boundaryFood = JsNum.fin 3 ∧
    getMonthlyExpenses isoDate jan15 boundaryFood = JsNum.fin 7 ∧
    isoDate "2024-01-16" = some (jan15 + msPerDay) ∧ jan15 < jan15 + msPerDay ∧
    getWeeklyExpenses isoDate jan15 (boundaryFood.take 3 ++ sampleExpense "2024-01-16" "8" "Food" :: [])
      = getWeeklyExpenses isoDate jan15 (boundaryFood.take 3 ++ []) :=
  ⟨((periodExpenses_spec isoDate jan15 boundaryFood).1).trans (by decide!),
   ((periodExpenses_spec isoDate jan15 boundaryFood).2.1).trans (by decide!),
   by decide!, by decide!,
   ((periodExpenses_spec isoDate jan15 boundaryFood).2.2.2 (boundaryFood.take 3) []
      (sampleExpense "2024-01-16" "8" "Food") (jan15 + msPerDay) (by decide!) (by decide!)).1⟩

/-! ## Date range -/

theorem strTruthy_eq_false (s : Option String) :
    strTruthy s = false ↔ s = none ∨ s = some "" := by
  cases s with
  | none => simp [strTruthy]
  | some v => simp [strTruthy]

theorem strTruthy_some (s : String) (h : s ≠ "") : strTruthy (some s) = true := by
  simp [strTruthy, h]

/-- C11: with both bounds absent (`null`, `undefined` or the empty string),
`filterByDateRange` returns the list unchanged, the same records in the same order. -/
theorem filterByDateRange_no_bounds (D : String → Option Int) (L : List Transaction)
    (startDate endDate : Option String)
    (hs : startDate = none ∨ startDate = some "")
    (he : endDate = none ∨ endDate = some "") :
    filterByDateRange D L startDate endDate = L := by
  have h1 := (strTruthy_eq_false startDate).2 hs
  have h2 := (strTruthy_eq_false endDate).2 he
  simp [filterByDateRange, h1, h2]

/-- C11 at a concrete input: start `null`, end the empty string. -/
theorem filterByDateRange_no_bounds_witness :
    filterByDateRange isoDate januaryFood none (some "") = januaryFood :=
  filterByDateRange_no_bounds isoDate januaryFood none (some "") (Or.inl rfl) (Or.inr rfl)

theorem filterByDateRange_filter (D : String → Option Int) (L : List Transaction)
    (startDate endDate : Option String) (h : strTruthy startDate = true ∨ strTruthy endDate = true) :
    filterByDateRange D L startDate endDate
      = L.filter (fun t =>
          timeGe (D t.date)
            (if strTruthy startDate then D (startDate.getD "") else D "1900-01-01") &&
          timeLe (D t.date)
            (if strTruthy endDate then D (endDate.getD "") else D "2100-12-31")) := by
  unfold filterByDateRange
  rcases h with h | h
  · simp [h]
  · simp [h]

theorem timeGe_timeLe_eq_inRange (D : String → Option Int) (a b : Int) :
    (fun t : Transaction => timeGe (D t.date) (some a) && timeLe (D t.date) (some b))
      = inRange D a b := by
  funext t
  unfold inRange timeGe timeLe
  cases D t.date with
  | none => simp
  | some d => simp [Bool.decide_and]

theorem inRange_iff (D : String → Option Int) (a b : Int) (t : Transaction) :
    inRange D a b t = true ↔ ∃ d, D t.date = some d ∧ a ≤ d ∧ d ≤ b := by
  unfold inRange
  cases D t.date with
  | none => simp
  | some d => simp

/-- C12: with a start and an end date, `filterByDateRange` returns, in input order, exactly
the records whose date d satisfies start <= d <= end; a record dated exactly on the start
or exactly on the end is kept. -/
theorem filterByDateRange_both (D : String → Option Int) (L : List Transaction)
    (startDate endDate : String) (a b : Int)
    (hs : startDate ≠ "") (he : endDate ≠ "")
    (ha : D startDate = some a) (hb : D endDate = some b) :
    filterByDateRange D L (some startDate) (some endDate) = L.filter (inRange D a b) ∧
    (∀ t, inRange D a b t = true ↔ ∃ d, D t.date = some d ∧ a ≤ d ∧ d ≤ b) ∧
    List.Sublist (filterByDateRange D L (some startDate) (some endDate)) L ∧
    (∀ t ∈ L, a ≤ b → (D t.date = some a ∨ D t.date = some b) →
      t ∈ filterByDateRange D L (some startDate) (some endDate)) := by
  have heq : filterByDateRange D L (some startDate) (some endDate)
      = L.filter (inRange D a b) := by
    rw [filterByDateRange_filter D L _ _ (Or.inl (strTruthy_some _ hs))]
    simp only [strTruthy_some _ hs, strTruthy_some _ he, if_true, Option.getD_some, ha, hb]
    rw [timeGe_timeLe_eq_inRange]
  refine ⟨heq, inRange_iff D a b, ?_, ?_⟩
  · rw [heq]
    exact List.filter_sublist L
  · intro t ht hab hd
    rw [heq, List.mem_filter]
    refine ⟨ht, (inRange_iff D a b t).2 ?_⟩
    rcases hd with hd | hd
    · exact ⟨a, hd, le_refl a, hab⟩
    · exact ⟨b, hd, hab, le_refl b⟩

/-- C12 at a concrete input: the range 2024-01-08 to 2024-01-15 keeps the records dated
exactly on its two ends and drops the ones dated a day outside. -/
theorem filterByDateRange_both_witness :
    filterByDateRange isoDate boundaryFood (some "2024-01-08") (some "2024-01-15")
      = [sampleExpense "2024-01-08" "1" "Food", sampleExpense "2024-01-15" "2" "Food"] :=
  ((filterByDateRange_both isoDate boundaryFood "2024-01-08" "2024-01-15"
      (jan15 - 7 * msPerDay) jan15 (by decide) (by decide) (by decide!) (by decide!)).1).trans
    (by decide!)

/-- C13, as stated, fails: with only the start date 2024-01-01 a record dated 2101-01-01 is
dropped, and with only the end date 2024-01-01 a record dated 1899-12-31 is dropped. -/
theorem filterByDateRange_one_bound_counterexample :
    timeGe (isoDate "2101-01-01") (isoDate "2024-01-01") = true ∧
    filterByDateRange isoDate [sampleExpense "2101-01-01" "5" "Food"] (some "2024-01-01") none
      = [] ∧
    timeLe (isoDate "1899-12-31") (isoDate "2024-01-01") = true ∧
    filterByDateRange isoDate [sampleExpense "1899-12-31" "5" "Food"] none (some "2024-01-01")
      = [] := by
  decide!

/-- C13, amended: when only one bound is given the other is a fixed sentinel. With only a
start date exactly the records dated on or after the start and on or before 2100-12-31
are kept; with only an end date exactly the records dated on or before the end and on or
after 1900-01-01 are kept. -/
theorem filterByDateRange_one_bound (D : String → Option Int) (L : List Transaction)
    (bound : String) (a : Int) (absent : Option String)
    (hb : bound ≠ "") (ha : D bound = some a)
    (hab : absent = none ∨ absent = some "")
    (hlo : D "1900-01-01" = some farPast) (hhi : D "2100-12-31" = some farFuture) :
    filterByDateRange D L (some bound) absent = L.filter (inRange D a farFuture) ∧
    filterByDateRange D L absent (some bound) = L.filter (inRange D farPast a) ∧
    (∀ lo hi t, inRange D lo hi t = true ↔ ∃ d, D t.date = some d ∧ lo ≤ d ∧ d ≤ hi) := by
  have h0 := (strTruthy_eq_false absent).2 hab
  have h1 := strTruthy_some _ hb
  refine ⟨?_, ?_, inRange_iff D⟩
  · rw [filterByDateRange_filter D L _ _ (Or.inl h1)]
    simp only [h0, h1, if_true, Option.getD_some, ha, hhi, Bool.false_eq_true, if_false]
    rw [timeGe_timeLe_eq_inRange]
  · rw [filterByDateRange_filter D L _ _ (Or.inr h1)]
    simp only [h0, h1, if_true, Option.getD_some, ha, hlo, Bool.false_eq_true, if_false]
    rw [timeGe_timeLe_eq_inRange]

/-- C13, amended, at a concrete input: with only the start date 2024-01-10, of the records
dated 2024-01-10, 2024-01-12 and 2023-11-01 the first two are kept. -/
theorem filterByDateRange_one_bound_witness :
    isoDate "1900-01-01" = some farPast ∧ isoDate "2100-12-31" = some farFuture ∧
    filterByDateRange isoDate januaryFood (some "2024-01-10") none
      = [sampleExpense "2024-01-10" "20" "Food", sampleExpense "2024-01-12" "15" "Food"] :=
  ⟨by decide!, by decide!,
   ((filterByDateRange_one_bound isoDate januaryFood "2024-01-10" (jan15 - 5 * msPerDay) none
      (by decide) (by decide!) (Or.inl rfl) (by decide!) (by decide!)).1).trans (by decide!)⟩

/-- C14: a record whose date fails to parse is absent from the result of
`filterByDateRange` whenever at least one bound is given, and, wherever it stands in the
list, it contributes nothing to `getWeeklyExpenses`, to `getMonthlyExpenses`, to the
per-category period spending, or to any result of `checkBudgetStatus`; every function
returns a value. -/
theorem unparsed_date_excluded (D : String → Option Int) (t : Transaction)
    (h : D t.date = none) :
    (∀ (L : List Transaction) (startDate endDate : Option String),
      strTruthy startDate = true ∨ strTruthy endDate = true →
      t ∉ filterByDateRange D L startDate endDate) ∧
    (∀ (now : Int) (before after : List Transaction),
      getWeeklyExpenses D now (before ++ t :: after)
        = getWeeklyExpenses D now (before ++ after) ∧
      getMonthlyExpenses D now (before ++ t :: after)
        = getMonthlyExpenses D now (before ++ after) ∧
      (∀ (period : JsVal) (c : String),
        categorySpent D now period (before ++ t :: after) c
          = categorySpent D now period (before ++ after) c) ∧
      (∀ settings : Option BudgetSettings,
        checkBudgetStatus D now settings (before ++ t :: after)
          = checkBudgetStatus D now settings (before ++ after))) := by
  constructor
  · intro L startDate endDate hb hmem
    rw [filterByDateRange_filter D L _ _ hb, List.mem_filter] at hmem
    simp [h, timeGe] at hmem
  · intro now before after
    have hge : ∀ bound : Int, dateGe (D t.date) bound = false := by
      intro bound
      rw [h]
      rfl
    have hw : getWeeklyExpenses D now (before ++ t :: after)
        = getWeeklyExpenses D now (before ++ after) := by
      simp [getWeeklyExpenses, List.filter_append, List.filter_cons, hge]
    have hm : getMonthlyExpenses D now (before ++ t :: after)
        = getMonthlyExpenses D now (before ++ after) := by
      simp [getMonthlyExpenses, List.filter_append, List.filter_cons, hge]
    refine ⟨hw, hm, ?_, ?_⟩
    · intro period c
      simp [categorySpent, List.filter_append, List.filter_cons, hge]
    · intro settings
      cases settings with
      | none => rfl
      | some s =>
        unfold checkBudgetStatus
        simp only [hw, hm, List.filter_append, List.filter_cons, hge, Bool.false_eq_true,
          if_false]

/-- C14 at a concrete input: an expense dated "soon" is dropped by a filter with only a
start date, and a Food budget of 30 is not exceeded by it. -/
theorem unparsed_date_excluded_witness :
    isoDate undatedFood.date = none ∧
    undatedFood ∉ filterByDateRange isoDate [undatedFood] (some "2024-01-01") none ∧
    getWeeklyExpenses isoDate jan15 ([] ++ undatedFood :: januaryFood)
      = getWeeklyExpenses isoDate jan15 ([] ++ januaryFood) :=
  ⟨by decide!,
   (unparsed_date_excluded isoDate undatedFood (by decide!)).1 [undatedFood]
     (some "2024-01-01") none (Or.inl (by decide)),
   ((unparsed_date_excluded isoDate undatedFood (by decide!)).2 jan15 [] januaryFood).1⟩

/-! ## Sorting -/

theorem sortInsert_perm {α : Type} (cmp : α → α → JsNum) (a : α) (l : List α) :
    List.Perm (sortInsert cmp a l) (a :: l) := by
  induction l with
  | nil => exact List.Perm.refl _
  | cons b l ih =>
    unfold sortInsert
    by_cases h : (cmp a b).gt (JsNum.fin 0) = true
    · simp only [h, if_true]
      exact (List.Perm.cons b ih).trans (List.Perm.swap a b l)
    · simp only [h, if_false]
      exact List.Perm.refl _

theorem jsSort_perm {α : Type} (cmp : α → α → JsNum) (l : List α) :
    List.Perm (jsSort cmp l) l := by
  induction l with
  | nil => exact List.Perm.refl _
  | cons a l ih =>
    unfold jsSort
    exact (sortInsert_perm cmp a _).trans (List.Perm.cons a ih)

/-- Inserting into a list that is in descending order of a key keeps it in descending
order, when the comparator is positive exactly on the pairs in ascending key order. -/
theorem sortInsert_pairwise {α : Type} (cmp : α → α → JsNum) (key : α → Int) (a : α)
    (l : List α) (hc : ∀ b ∈ l, ((cmp a b).gt (JsNum.fin 0) = true ↔ key a < key b))
    (hs : l.Pairwise (fun x y => key y ≤ key x)) :
    (sortInsert cmp a l).Pairwise (fun x y => key y ≤ key x) := by
  induction l with
  | nil => simp [sortInsert]
  | cons b l ih =>
    rw [List.pairwise_cons] at hs
    unfold sortInsert
    by_cases h : (cmp a b).gt (JsNum.fin 0) = true
    · rw [if_pos h]
      have hab : key a < key b := (hc b (by simp)).1 h
      rw [List.pairwise_cons]
      refine ⟨?_, ih (fun c hcm => hc c (by simp [hcm])) hs.2⟩
      intro y hy
      have hy' := (List.Perm.mem_iff (sortInsert_perm cmp a l)).1 hy
      rw [List.mem_cons] at hy'
      rcases hy' with hy' | hy'
      · rw [hy']; exact le_of_lt hab
      · exact hs.1 y hy'
    · rw [if_neg h]
      have hab : key b ≤ key a := by
        by_contra hlt
        exact h ((hc b (by simp)).2 (lt_of_not_le hlt))
      rw [List.pairwise_cons, List.pairwise_cons]
      refine ⟨?_, hs.1, hs.2⟩
      intro y hy
      simp only [List.mem_cons] at hy
      rcases hy with hy | hy
      · rw [hy]; exact hab
      · exact le_trans (hs.1 y hy) hab

theorem jsSort_pairwise {α : Type} (cmp : α → α → JsNum) (key : α → Int) (l : List α)
    (hc : ∀ a ∈ l, ∀ b ∈ l, ((cmp a b).gt (JsNum.fin 0) = true ↔ key a < key b)) :
    (jsSort cmp l).Pairwise (fun x y => key y ≤ key x) := by
  induction l with
  | nil => simp [jsSort]
  | cons a l ih =>
    unfold jsSort
    apply sortInsert_pairwise
    · intro b hb
      have hbl : b ∈ l := (List.Perm.mem_iff (jsSort_perm cmp l)).1 hb
      exact hc a (by simp) b (by simp [hbl])
    · exact ih (fun x hx y hy => hc x (by simp [hx]) y (by simp [hy]))

/-- In a list in descending order of a key, every element of a prefix has a key at least
that of every element after the prefix. -/
theorem pairwise_take_drop {α : Type} (key : α → Int) (l : List α) (n : Nat)
    (hs : l.Pairwise (fun x y => key y ≤ key x)) :
    ∀ a ∈ l.take n, ∀ b ∈ l.drop n, key b ≤ key a := by
  have h : (l.take n ++ l.drop n).Pairwise (fun x y => key y ≤ key x) := by
    rw [List.take_append_drop]
    exact hs
  rw [List.pairwise_append] at h
  exact h.2.2

/-- C15: when all dates parse, `getRecentTransactions` returns exactly
min(n, |expenses| + |income|) records, drawn from the two lists (the returned records
together with the records left out are a rearrangement of expenses followed by income),
in descending date order, and every returned record is dated no earlier than every
record left out; with n = 5 on 10 records it returns exactly 5. -/
theorem getRecentTransactions_spec (D : String → Option Int)
    (expenses income : List Transaction) (n : Nat)
    (h : ∀ t ∈ expenses ++ income, (D t.date).isSome = true) :
    (getRecentTransactions D expenses income (some n)).length
      = min n (expenses.length + income.length) ∧
    (∃ rest : List Transaction,
      List.Perm (getRecentTransactions D expenses income (some n) ++ rest)
        (expenses ++ income) ∧
      ∀ a ∈ getRecentTransactions D expenses income (some n), ∀ b ∈ rest,
        notEarlier D a b) ∧
    (getRecentTransactions D expenses income (some n)).Pairwise
      (fun a b => notEarlier D a b) ∧
    (expenses.length + income.length = 10 → n = 5 →
      (getRecentTransactions D expenses income (some n)).length = 5) := by
  have hperm := jsSort_perm (fun a b : Transaction => dateDiff (D b.date) (D a.date))
    (expenses ++ income)
  have hlen : (getRecentTransactions D expenses income (some n)).length
      = min n (expenses.length + income.length) := by
    unfold getRecentTransactions
    simp only [Option.getD_some, List.length_take]
    rw [hperm.length_eq, List.length_append]
  have hsorted := jsSort_pairwise (fun a b : Transaction => dateDiff (D b.date) (D a.date))
    (fun t => (D t.date).getD 0) (expenses ++ income) (by
      intro a ha b hb
      obtain ⟨x, hx⟩ := Option.isSome_iff_exists.1 (h a ha)
      obtain ⟨y, hy⟩ := Option.isSome_iff_exists.1 (h b hb)
      simp only [hx, hy, dateDiff, JsNum.gt, JsNum.lt, Option.getD_some, decide_eq_true_eq]
      constructor
      · intro hlt
        have : (0 : ℚ) < ((y - x : Int) : ℚ) := hlt
        have h2 : (0 : Int) < y - x := by exact_mod_cast this
        omega
      · intro hlt
        have h2 : (0 : Int) < y - x := by omega
        show (0 : ℚ) < ((y - x : Int) : ℚ)
        exact_mod_cast h2)
  have hmem : ∀ t ∈ jsSort (fun a b : Transaction => dateDiff (D b.date) (D a.date))
      (expenses ++ income), ∃ d, D t.date = some d :=
    fun t ht => Option.isSome_iff_exists.1 (h t ((List.Perm.mem_iff hperm).1 ht))
  have toNE : ∀ a b : Transaction, (∃ d, D a.date = some d) → (∃ d, D b.date = some d) →
      (D b.date).getD 0 ≤ (D a.date).getD 0 → notEarlier D a b := by
    intro a b ⟨x, hx⟩ ⟨y, hy⟩ hle
    rw [hx, hy] at hle
    exact ⟨x, y, hx, hy, hle⟩
  refine ⟨hlen, ?_, ?_, ?_⟩
  · refine ⟨(jsSort (fun a b : Transaction => dateDiff (D b.date) (D a.date))
      (expenses ++ income)).drop n, ?_, ?_⟩
    · unfold getRecentTransactions
      simp only [Option.getD_some, List.take_append_drop]
      exact hperm
    · intro a ha b hb
      unfold getRecentTransactions at ha
      simp only [Option.getD_some] at ha
      exact toNE a b (hmem a (List.mem_of_mem_take ha)) (hmem b (List.mem_of_mem_drop hb))
        (pairwise_take_drop _ _ n hsorted a ha b hb)
  · unfold getRecentTransactions
    simp only [Option.getD_some]
    have hp : (jsSort (fun a b : Transaction => dateDiff (D b.date) (D a.date))
        (expenses ++ income)).Pairwise (fun a b => notEarlier D a b) := by
      refine List.Pairwise.imp_of_mem ?_ hsorted
      intro a b ha hb hle
      exact toNE a b (hmem a ha) (hmem b hb) hle
    exact List.Pairwise.sublist (List.take_sublist _ _) hp
  · intro h10 h5
    rw [hlen, h10, h5]
    rfl

/-- C15 at a concrete input: six expenses and four income records, n = 5. The five most
recent come back, newest first, the expense dated 2024-01-09 before the income of the
same date. -/
theorem getRecentTransactions_spec_witness :
    getRecentTransactions isoDate tenExpenses fourIncome (some 5)
      = [sampleExpense "2024-01-10" "10" "Food", sampleExpense "2024-01-09" "9" "Food",
         sampleIncome "2024-01-09" "90", sampleIncome "2024-01-08" "8",
         sampleExpense "2024-01-07" "7" "Food"] ∧
    (getRecentTransactions isoDate tenExpenses fourIncome (some 5)).length = 5 :=
  ⟨by decide!,
   (getRecentTransactions_spec isoDate tenExpenses fourIncome 5 (by decide!)).2.2.2
     (by decide) rfl⟩

/-! ## Export -/

/-- C16 on the code: the category is written without quotes. The row of an expense in the
category `Food, Drinks` reads back as eight fields, the category split in two, whatever
way a Number prints; the description, which is quoted, reads back whole, and so does the
row of an expense whose description and notes hold commas and quotes. -/
theorem export_row_category_comma (showNum : JsNum → String) :
    parseCsvRecord (String.intercalate "," (expenseFields showNum commaCategoryExpense))
      = ["Expense", "2024-01-01", "20", heSaidHi ++ ", twice", "Food", " Drinks", "Cash", ""] ∧
    (parseCsvRecord
      (String.intercalate "," (expenseFields showNum commaCategoryExpense))).length = 8 ∧
    parseCsvRecord (String.intercalate "," (expenseFields showNum quotedTextExpense))
      = ["Expense", "2024-01-01", "20", heSaidHi ++ ", twice", "Food", "Cash",
         "a, " ++ heSaidHi] := by
  have h1 : expenseFields showNum commaCategoryExpense
      = expenseFields (fun _ => "") commaCategoryExpense := rfl
  have h2 : expenseFields showNum quotedTextExpense
      = expenseFields (fun _ => "") quotedTextExpense := rfl
  rw [h1, h2]
  decide!

theorem undoubleQuotes_cons_ne (c : Char) (cs : List Char) (h : c ≠ dquote) :
    undoubleQuotes (c :: cs) = c :: undoubleQuotes cs := by
  cases cs with
  | nil => simp [undoubleQuotes]
  | cons d r => simp [undoubleQuotes, h]

theorem undoubleQuotes_doubleQuotes (cs : List Char) :
    undoubleQuotes (doubleQuotes cs) = cs := by
  induction cs with
  | nil => simp [doubleQuotes, undoubleQuotes]
  | cons c r ih =>
    by_cases h : c = dquote
    · simp [doubleQuotes, undoubleQuotes, h, ih]
    · simp [doubleQuotes, h, undoubleQuotes_cons_ne, ih]

theorem quoteField_toList (s : String) :
    (quoteField s).toList = dquote :: (doubleQuotes s.toList ++ [dquote]) := by
  simp [quoteField, String.toList, String.singleton, String.data_append]

theorem csvRead_quoted (cur : List Char) (done : List String) (d rest : List Char) :
    csvRead CsvMode.quoted cur done (doubleQuotes d ++ dquote :: rest)
      = csvRead CsvMode.quoteSeen (cur ++ d) done rest := by
  induction d generalizing cur with
  | nil => simp [doubleQuotes, csvRead]
  | cons c r ih =>
    by_cases h : c = dquote
    · subst h
      simp [doubleQuotes, csvRead, ih]
    · simp [doubleQuotes, h, csvRead, ih]

theorem csvRead_plain_run (cur : List Char) (done : List String) (s rest : List Char)
    (h : ∀ c ∈ s, c ≠ ',' ∧ c ≠ dquote) :
    csvRead CsvMode.plain cur done (s ++ rest) = csvRead CsvMode.plain (cur ++ s) done rest := by
  induction s generalizing cur with
  | nil => simp
  | cons c r ih =>
    have hc := h c (by simp)
    simp only [List.cons_append, csvRead, hc.1, hc.2, if_false, List.append_eq]
    rw [ih _ (fun x hx => h x (by simp [hx]))]
    simp

/-- Reading an unquoted field without commas and quotes, up to the comma after it. -/
theorem csvRead_plain_field (done : List String) (s : String) (rest : List Char)
    (h : csvSafe s) :
    csvRead CsvMode.plain [] done (s.toList ++ ',' :: rest)
      = csvRead CsvMode.plain [] (done ++ [s]) rest := by
  rw [csvRead_plain_run [] done s.toList _ h]
  simp [csvRead]

/-- Reading a quoted field up to the comma after it. -/
theorem csvRead_quoted_field (done : List String) (d : String) (rest : List Char) :
    csvRead CsvMode.plain [] done ((quoteField d).toList ++ ',' :: rest)
      = csvRead CsvMode.plain [] (done ++ [d]) rest := by
  have hq : dquote ≠ ',' := by decide
  rw [quoteField_toList]
  simp only [List.cons_append, List.append_assoc, List.singleton_append]
  rw [csvRead]
  simp only [hq, if_false, if_true]
  rw [csvRead_quoted]
  have hq' : ',' ≠ dquote := by decide
  simp [csvRead, hq']

/-- The row of an expense whose date, amount, category and payment method hold neither a
comma nor a double quote reads back, by the CSV rules, as the seven values of the record,
whatever the description and the notes hold. -/
theorem expense_row_reads_back (showNum : JsNum → String) (e : Transaction)
    (hd : csvSafe e.date) (ha : csvSafe (joinItem showNum e.amount))
    (hc : csvSafe (e.category.getD "")) (hp : csvSafe (e.paymentMethod.getD "")) :
    parseCsvRecord (String.intercalate "," (expenseFields showNum e))
      = ["Expense", e.date, joinItem showNum e.amount, e.description, e.category.getD "",
         e.paymentMethod.getD "", if strTruthy e.notes then e.notes.getD "" else ""] := by
  have hE : csvSafe "Expense" := by
    intro c hc
    have : c ∈ ['E', 'x', 'p', 'e', 'n', 's', 'e'] := hc
    simp only [List.mem_cons, List.mem_singleton, List.not_mem_nil, or_false] at this
    rcases this with h | h | h | h | h | h | h <;> subst h <;> decide
  have hrow : (String.intercalate "," (expenseFields showNum e)).toList
      = "Expense".toList ++ ',' :: (e.date.toList ++ ',' ::
          ((joinItem showNum e.amount).toList ++ ',' ::
            ((quoteField e.description).toList ++ ',' ::
              ((e.category.getD "").toList ++ ',' ::
                ((e.paymentMethod.getD "").toList ++ ',' ::
                  (if strTruthy e.notes then quoteField (e.notes.getD "") else "").toList))))) := by
    simp [expenseFields, String.intercalate, String.intercalate.go, String.toList,
      String.data_append]
  unfold parseCsvRecord
  rw [hrow, csvRead_plain_field _ _ _ hE, csvRead_plain_field _ _ _ hd,
    csvRead_plain_field _ _ _ ha, csvRead_quoted_field, csvRead_plain_field _ _ _ hc,
    csvRead_plain_field _ _ _ hp]
  by_cases hn : strTruthy e.notes = true
  · simp only [hn, if_true]
    have hq : dquote ≠ ',' := by decide
    rw [quoteField_toList, csvRead]
    simp only [hq, if_false, if_true]
    rw [csvRead_quoted]
    simp [csvRead]
  · simp [hn, csvRead]

/-- C17: the Description field that `exportToCSV` writes, for an expense and for an income
record, is the description with each double quote doubled, wrapped in double quotes;
removing the enclosing quotes and replacing each doubled quote by one gives the
description back, and so does reading the field by the CSV rules. -/
theorem description_roundtrip (showNum : JsNum → String) (t : Transaction) :
    (expenseFields showNum t)[3]? = some (quoteField t.description) ∧
    (incomeFields showNum t)[3]? = some (quoteField t.description) ∧
    (quoteField t.description).toList
      = dquote :: (doubleQuotes t.description.toList ++ [dquote]) ∧
    unquoteField (quoteField t.description) = t.description ∧
    parseCsvRecord (quoteField t.description) = [t.description] := by
  refine ⟨rfl, rfl, quoteField_toList _, ?_, ?_⟩
  · unfold unquoteField stripEnds
    rw [quoteField_toList]
    simp [undoubleQuotes_doubleQuotes]
  · unfold parseCsvRecord
    rw [quoteField_toList]
    show csvRead CsvMode.plain [] [] (dquote :: (doubleQuotes t.description.toList ++ [dquote]))
      = [t.description]
    have hq : dquote ≠ ',' := by decide
    rw [csvRead]
    simp only [hq, if_false, if_true]
    rw [csvRead_quoted]
    simp [csvRead]

/-- The field written for the description `He said "hi"`, and what reads back from it. -/
theorem heSaidHi_quoted :
    quoteField heSaidHi
      = String.singleton dquote ++ "He said " ++ String.singleton dquote
        ++ String.singleton dquote ++ "hi" ++ String.singleton dquote
        ++ String.singleton dquote ++ String.singleton dquote ∧
    unquoteField (quoteField heSaidHi) = heSaidHi := by
  decide!

theorem foldl_append_rows {α : Type} (f : α → String) (l : List α) (init : String) :
    l.foldl (fun csv x => csv ++ f x) init = init ++ concatAll (l.map f) := by
  induction l generalizing init with
  | nil => simp [concatAll]
  | cons a l ih =>
    simp only [List.foldl_cons, List.map_cons, concatAll]
    rw [ih, String.append_assoc]

/-- C18: when both lists are empty nothing is exported; otherwise the text is the header
line, then one row per expense in input order, then one row per income record in input
order, every row ended by a line feed; an expense row has seven fields, the first one
"Expense", and an income row has first field "Income" and empty Category, Payment
Method and Notes. -/
theorem exportToCSV_layout (showNum : JsNum → String) (expenses income : List Transaction) :
    (expenses = [] → income = [] → exportToCSV showNum expenses income = none) ∧
    (¬ (expenses = [] ∧ income = []) →
      exportToCSV showNum expenses income
        = some (csvHeader
            ++ concatAll (expenses.map
                (fun e => String.intercalate "," (expenseFields showNum e) ++ "\n"))
            ++ concatAll (income.map
                (fun i => String.intercalate "," (incomeFields showNum i) ++ "\n")))) ∧
    csvHeader = "Type,Date,Amount,Description,Category,Payment Method,Notes\n" ∧
    (∀ e : Transaction, (expenseFields showNum e).length = 7 ∧
      (expenseFields showNum e)[0]? = some "Expense") ∧
    (∀ i : Transaction, incomeFields showNum i
      = ["Income", i.date, joinItem showNum i.amount, quoteField i.description, "", "", ""]) := by
  refine ⟨?_, ?_, rfl, fun e => ⟨rfl, rfl⟩, fun i => rfl⟩
  · intro he hi
    simp [exportToCSV, he, hi]
  · intro hne
    have hcond : ¬ (expenses.length = 0 ∧ income.length = 0) := by
      simpa [List.length_eq_zero] using hne
    unfold exportToCSV
    rw [if_neg hcond]
    simp only [foldl_append_rows]

/-- C18 at a concrete input: one expense and one income record. -/
theorem exportToCSV_layout_witness :
    exportToCSV (fun _ => "") [sampleExpense "2024-01-02" "50" "Food"]
        [sampleIncome "2024-01-01" "30"]
      = some (csvHeader
          ++ ("Expense,2024-01-02,50," ++ quoteField "lunch" ++ ",Food,Cash,\n")
          ++ ("Income,2024-01-01,30," ++ quoteField "salary" ++ ",,,\n")) ∧
    exportToCSV (fun _ => "") [] [] = none :=
  ⟨((exportToCSV_layout (fun _ => "") [sampleExpense "2024-01-02" "50" "Food"]
      [sampleIncome "2024-01-01" "30"]).2.1 (by decide)).trans (by decide!),
   (exportToCSV_layout (fun _ => "") [] []).1 rfl rfl⟩

/-! ## Category list -/

theorem handleAddCategory_nodup (cs : List String) (c : String) (h : cs.Nodup) :
    (handleAddCategory cs c).Nodup := by
  unfold handleAddCategory
  by_cases hc : c ∈ cs
  · simp [hc, h]
  · have hcond : (!cs.contains c) = true := by simp [hc]
    rw [if_pos hcond]
    rw [List.nodup_append]
    refine ⟨h, List.nodup_singleton c, ?_⟩
    intro x hx hx'
    rw [List.mem_singleton] at hx'
    exact hc (hx' ▸ hx)

theorem handleDeleteCategory_nodup (cs : List String) (c : String) (h : cs.Nodup) :
    (handleDeleteCategory cs c).Nodup := by
  unfold handleDeleteCategory
  by_cases hc : c ∈ getDefaultCategories
  · simp [hc, h]
  · have hcond : ¬ (getDefaultCategories.contains c = true) := by simp [hc]
    rw [if_neg hcond]
    exact List.Nodup.filter _ h

theorem handleAddCategory_keeps (cs : List String) (c d : String) (h : d ∈ cs) :
    d ∈ handleAddCategory cs c := by
  unfold handleAddCategory
  by_cases hc : c ∈ cs
  · simp [hc, h]
  · simp [hc, h]

theorem handleDeleteCategory_keeps_default (cs : List String) (c d : String)
    (hd : d ∈ getDefaultCategories) (h : d ∈ cs) : d ∈ handleDeleteCategory cs c := by
  unfold handleDeleteCategory
  by_cases hc : c ∈ getDefaultCategories
  · simp [hc, h]
  · have hcond : ¬ (getDefaultCategories.contains c = true) := by simp [hc]
    rw [if_neg hcond, List.mem_filter]
    refine ⟨h, ?_⟩
    have hne : d ≠ c := fun e => hc (e ▸ hd)
    simp [hne]

/-- C19: starting from the five default categories, after any sequence of
`handleAddCategory` and `handleDeleteCategory` calls the category list has no duplicate
name and contains the five defaults; deleting a default category and adding an existing
name leave the list unchanged. -/
theorem categories_invariant (actions : List CategoryAction) :
    (runCategoryActions actions).Nodup ∧
    (∀ d ∈ getDefaultCategories, d ∈ runCategoryActions actions) ∧
    getDefaultCategories
      = ["Food", "Transportation", "Entertainment", "Groceries", "Miscellaneous"] ∧
    (∀ (cs : List String) (c : String),
      c ∈ getDefaultCategories → handleDeleteCategory cs c = cs) ∧
    (∀ (cs : List String) (c : String), c ∈ cs → handleAddCategory cs c = cs) := by
  have inv : ∀ (acts : List CategoryAction) (cs : List String),
      cs.Nodup → (∀ d ∈ getDefaultCategories, d ∈ cs) →
      (acts.foldl applyCategoryAction cs).Nodup ∧
      (∀ d ∈ getDefaultCategories, d ∈ acts.foldl applyCategoryAction cs) := by
    intro acts
    induction acts with
    | nil => intro cs h1 h2; exact ⟨h1, h2⟩
    | cons a rest ih =>
      intro cs h1 h2
      rw [List.foldl_cons]
      cases a with
      | add c =>
        exact ih _ (handleAddCategory_nodup cs c h1)
          (fun d hd => handleAddCategory_keeps cs c d (h2 d hd))
      | delete c =>
        exact ih _ (handleDeleteCategory_nodup cs c h1)
          (fun d hd => handleDeleteCategory_keeps_default cs c d hd (h2 d hd))
  have h0 := inv actions getDefaultCategories (by decide) (fun d hd => hd)
  refine ⟨h0.1, h0.2, rfl, ?_, ?_⟩
  · intro cs c hc
    simp [handleDeleteCategory, hc]
  · intro cs c hc
    simp [handleAddCategory, hc]

/-- C19 at a concrete run: adding Travel twice, deleting Food and deleting Travel gives
back the five defaults. -/
theorem categories_invariant_witness :
    runCategoryActions [CategoryAction.add "Travel", CategoryAction.add "Travel",
        CategoryAction.delete "Food", CategoryAction.add "Pets",
        CategoryAction.delete "Travel"]
      = getDefaultCategories ++ ["Pets"] ∧
    handleDeleteCategory (getDefaultCategories ++ ["Pets"]) "Food"
      = getDefaultCategories ++ ["Pets"] ∧
    handleAddCategory (getDefaultCategories ++ ["Pets"]) "Pets"
      = getDefaultCategories ++ ["Pets"] :=
  ⟨by decide,
   (categories_invariant []).2.2.2.1 (getDefaultCategories ++ ["Pets"]) "Food" (by decide),
   (categories_invariant []).2.2.2.2 (getDefaultCategories ++ ["Pets"]) "Pets" (by decide)⟩

/-! ## Percentages -/

theorem mem_jsSort {α : Type} (cmp : α → α → JsNum) (l : List α) (x : α) :
    x ∈ jsSort cmp l ↔ x ∈ l :=
  List.Perm.mem_iff (jsSort_perm cmp l)

/-- C20: the percentage computed for a group amount x against a total of 0 is the Number
0 for every x (so neither NaN nor an infinity), as it is against every total that is not
greater than 0 (against a positive finite total a finite amount gives the finite value
amount / total * 100, printed with one decimal); when the total of the filtered expenses
is 0, every entry of `categoryPercentages` and of `paymentPercentages` has percentage 0. -/
theorem percentage_zero_total (x : JsNum) :
    percentageOf x (JsNum.fin 0) = Percentage.number (JsNum.fin 0) ∧
    percentageOf x (JsNum.fin 0) ≠ Percentage.number JsNum.nan ∧
    percentageOf x (JsNum.fin 0) ≠ Percentage.number JsNum.inf ∧
    (∀ total : JsNum, total.gt (JsNum.fin 0) = false →
      percentageOf x total = Percentage.number (JsNum.fin 0)) ∧
    (∀ a t : ℚ, 0 < t →
      percentageOf (JsNum.fin a) (JsNum.fin t) = Percentage.fixed1 (JsNum.fin (a / t * 100))) ∧
    (∀ filteredExpenses : List Transaction,
      calculateTotalExpenses filteredExpenses = JsNum.fin 0 →
      (∀ item ∈ categoryPercentages filteredExpenses,
        item.percentage = Percentage.number (JsNum.fin 0)) ∧
      (∀ item ∈ paymentPercentages filteredExpenses,
        item.percentage = Percentage.number (JsNum.fin 0))) := by
  have h0 : ∀ y : JsNum, percentageOf y (JsNum.fin 0) = Percentage.number (JsNum.fin 0) := by
    intro y
    simp [percentageOf, JsNum.gt, JsNum.lt]
  refine ⟨h0 x, ?_, ?_, ?_, ?_, ?_⟩
  · rw [h0 x]
    simp
  · rw [h0 x]
    simp
  · intro total ht
    simp [percentageOf, ht]
  · intro a t ht
    have hne : t ≠ 0 := ne_of_gt ht
    simp [percentageOf, JsNum.gt, JsNum.lt, ht, JsNum.div, JsNum.mul, hne]
  · intro filteredExpenses htot
    constructor
    · intro item hitem
      unfold categoryPercentages at hitem
      rw [mem_jsSort, List.mem_map] at hitem
      obtain ⟨entry, _, he⟩ := hitem
      rw [← he, htot]
      exact h0 entry.2
    · intro item hitem
      unfold paymentPercentages at hitem
      rw [mem_jsSort, List.mem_map] at hitem
      obtain ⟨entry, _, he⟩ := hitem
      rw [← he, htot]
      exact h0 entry.2

/-- C20 at a concrete input: Food 5 and a Transportation refund of -5 total 0, and both
entries have percentage 0. -/
theorem percentage_zero_total_witness :
    calculateTotalExpenses cancellingExpenses = JsNum.fin 0 ∧
    categoryPercentages cancellingExpenses
      = [{ category := "Food", amount := JsNum.fin 5,
           percentage := Percentage.number (JsNum.fin 0) },
         { category := "Transportation", amount := JsNum.fin (-5),
           percentage := Percentage.number (JsNum.fin 0) }] ∧
    ∀ item ∈ categoryPercentages cancellingExpenses,
      item.percentage = Percentage.number (JsNum.fin 0) :=
  ⟨by decide!, by decide!,
   ((percentage_zero_total JsNum.nan).2.2.2.2.2 cancellingExpenses (by decide!)).1⟩

/-! ## Budget status: worked examples and further properties -/

/-- The result of the overall branch, with the spending written as a total over the
period filter. -/
theorem checkBudgetStatus_overall_eq (D : String → Option Int) (now : Int)
    (settings : BudgetSettings) (expenses : List Transaction)
    (h : settings.type = JsVal.string "overall") :
    checkBudgetStatus D now (some settings) expenses
      = { exceeded := (settings.amount.sub (calculateTotalExpenses
            (expenses.filter (withinLastNDays D now (periodDays settings.period))))).lt
            (JsNum.fin 0),
          remaining := some (settings.amount.sub (calculateTotalExpenses
            (expenses.filter (withinLastNDays D now (periodDays settings.period))))).abs,
          exceededCategories := none,
          message :=
            if (settings.amount.sub (calculateTotalExpenses
                (expenses.filter (withinLastNDays D now (periodDays settings.period))))).lt
                (JsNum.fin 0) = true
            then Message.exceededBy (settings.amount.sub (calculateTotalExpenses
                (expenses.filter (withinLastNDays D now (periodDays settings.period))))).abs
            else Message.remainingIn (settings.amount.sub (calculateTotalExpenses
                (expenses.filter (withinLastNDays D now (periodDays settings.period)))))
              settings.period } := by
  unfold checkBudgetStatus
  simp only [h, if_true]
  rw [overall_totalExpenses]

theorem amountOf_numberExpense (date : String) (amount : ℚ) (category : String) :
    amountOf (numberExpense date amount category) = JsNum.fin amount :=
  amountOf_number_fin _ _ rfl

/-- C23: with the single expense of 50 dated 2024-01-01 in Food, an overall monthly budget
of 40 and a reference instant from 2024-01-01 to 2024-01-31 (so at every instant of
2024-01-15), `checkBudgetStatus` reports exceeded = true, with remaining = 10 the overage
and the message of an exceeded budget. -/
theorem overall_monthly_40 (now : Int) (h1 : jan1 ≤ now) (h2 : now ≤ jan1 + 30 * msPerDay) :
    checkBudgetStatus isoDate now (some (overallBudget "monthly" 40))
        [numberExpense "2024-01-01" 50 "Food"]
      = { exceeded := true, remaining := some (JsNum.fin 10), exceededCategories := none,
          message := Message.exceededBy (JsNum.fin 10) } := by
  have hd : isoDate (numberExpense "2024-01-01" 50 "Food").date = some jan1 := by decide!
  have hin : withinLastNDays isoDate now (periodDays (overallBudget "monthly" 40).period)
      (numberExpense "2024-01-01" 50 "Food") = true := by
    unfold withinLastNDays
    rw [hd]
    have hp : periodDays (overallBudget "monthly" 40).period = 30 := by decide
    rw [hp]
    simp only [decide_eq_true_eq]
    constructor <;> omega
  have htot : calculateTotalExpenses
      ([numberExpense "2024-01-01" 50 "Food"].filter
        (withinLastNDays isoDate now (periodDays (overallBudget "monthly" 40).period)))
      = JsNum.fin 50 := by
    rw [List.filter_cons_of_pos hin, List.filter_nil]
    have := calculateTotalExpenses_snoc [] (numberExpense "2024-01-01" 50 "Food")
    rw [List.nil_append] at this
    rw [this, amountOf_numberExpense]
    show (JsNum.fin 0).add (JsNum.fin 50) = JsNum.fin 50
    simp [JsNum.add]
  rw [checkBudgetStatus_overall_eq isoDate now _ _ rfl, htot]
  have hsub : (overallBudget "monthly" 40).amount.sub (JsNum.fin 50) = JsNum.fin (-10) := by
    show JsNum.fin (40 + -50) = JsNum.fin (-10)
    norm_num
  rw [hsub]
  have hlt : (JsNum.fin (-10)).lt (JsNum.fin 0) = true := by
    simp [JsNum.lt]
  have habs : (JsNum.fin (-10)).abs = JsNum.fin 10 := by
    simp [JsNum.abs]
  rw [hlt, habs]
  rfl

/-- C23 at the reference instant 2024-01-15T00:00:00Z. -/
theorem overall_monthly_40_witness :
    jan1 ≤ jan15 ∧ jan15 ≤ jan1 + 30 * msPerDay ∧
    checkBudgetStatus isoDate jan15 (some (overallBudget "monthly" 40))
        [numberExpense "2024-01-01" 50 "Food"]
      = { exceeded := true, remaining := some (JsNum.fin 10), exceededCategories := none,
          message := Message.exceededBy (JsNum.fin 10) } :=
  ⟨by decide, by decide, overall_monthly_40 jan15 (by decide) (by decide)⟩

/-- The period filter of the per-category branch. -/
theorem category_filter_eq (D : String → Option Int) (now : Int) (period : JsVal)
    (es : List Transaction) :
    (if period = JsVal.string "weekly" then
        es.filter (fun exp => dateGe (D exp.date) (now - 7 * 24 * 60 * 60 * 1000))
      else es.filter (fun exp => dateGe (D exp.date) (now - 30 * 24 * 60 * 60 * 1000)))
      = es.filter (sinceLastNDays D now (periodDays period)) := by
  unfold periodDays
  by_cases hp : period = JsVal.string "weekly"
  · simp only [hp, if_true]
    apply List.filter_congr
    intro e _
    unfold sinceLastNDays msPerDay dateGe
    cases D e.date <;> simp
  · simp only [hp, if_false]
    apply List.filter_congr
    intro e _
    unfold sinceLastNDays msPerDay dateGe
    cases D e.date <;> simp

theorem sinceLastNDays_of_within (D : String → Option Int) (now n : Int) (e : Transaction)
    (h : withinLastNDays D now n e = true) : sinceLastNDays D now n e = true := by
  unfold withinLastNDays at h
  unfold sinceLastNDays
  cases hd : D e.date with
  | none => rw [hd] at h; exact absurd h (by simp)
  | some d =>
    rw [hd] at h
    simp only [decide_eq_true_eq] at h ⊢
    exact h.1

/-- C24: with the per-category budget Food: 30 and two Food expenses of 20 and 15 dated
within the period, `checkBudgetStatus` reports exceeded = true with exactly one flagged
category, Food, whose spent is 35 and whose overage is 5; for both periods, every parser
of dates and every reference instant. -/
theorem perCategory_food_30 (D : String → Option Int) (now : Int) (period : JsVal)
    (amount : JsNum) (e1 e2 : Transaction)
    (hk1 : categoryKey e1 = "Food") (hk2 : categoryKey e2 = "Food")
    (ha1 : amountOf e1 = JsNum.fin 20) (ha2 : amountOf e2 = JsNum.fin 15)
    (hd1 : withinLastNDays D now (periodDays period) e1 = true)
    (hd2 : withinLastNDays D now (periodDays period) e2 = true) :
    checkBudgetStatus D now
        (some { type := JsVal.string "category", period := period, amount := amount,
                categoryBudgets := some [("Food", JsNum.fin 30)] })
        [e1, e2]
      = { exceeded := true, remaining := none,
          exceededCategories := some [{ category := "Food", exceeded := JsNum.fin 5,
                                        spent := JsNum.fin 35, budget := JsNum.fin 30 }],
          message := Message.exceededIn 1 } := by
  have hgroup : calculateExpensesByCategory [e1, e2] = [("Food", JsNum.fin 35)] := by
    unfold calculateExpensesByCategory
    rw [categoryStep_eq]
    have h35 : (JsNum.fin 20).add (JsNum.fin 15) = JsNum.fin 35 := by
      show JsNum.fin (20 + 15) = JsNum.fin 35
      norm_num
    have ht : (JsNum.fin 20).truthy = true := by simp [JsNum.truthy]
    simp [List.foldl, groupStep, hk1, hk2, ha1, ha2, objGet, objSet, ht, h35]
  have hfilter : [e1, e2].filter (sinceLastNDays D now (periodDays period)) = [e1, e2] := by
    rw [List.filter_cons_of_pos (sinceLastNDays_of_within D now _ e1 hd1),
      List.filter_cons_of_pos (sinceLastNDays_of_within D now _ e2 hd2), List.filter_nil]
  have hkeys : objKeys [("Food", JsNum.fin 30)] = ["Food"] := by decide
  have hflag : flaggedEntry [("Food", JsNum.fin 30)] [("Food", JsNum.fin 35)] "Food"
      = some { category := "Food", exceeded := JsNum.fin 5, spent := JsNum.fin 35,
               budget := JsNum.fin 30 } := by
    have ht : (JsNum.fin 35).truthy = true := by simp [JsNum.truthy]
    have hgt : (JsNum.fin 35).gt (JsNum.fin 30) = true := by
      simp [JsNum.gt, JsNum.lt]
      norm_num
    have hsub : (JsNum.fin 35).sub (JsNum.fin 30) = JsNum.fin 5 := by
      show JsNum.fin (35 + -30) = JsNum.fin 5
      norm_num
    simp [flaggedEntry, objGet, numOr, ht, hgt, hsub]
  rw [checkBudgetStatus_category_eq D now _ [e1, e2] [("Food", JsNum.fin 30)] rfl rfl]
  simp only [category_filter_eq, hfilter, hgroup, hkeys, List.filterMap_cons, hflag,
    List.filterMap_nil, List.length_singleton]
  rfl

/-- C24 at a concrete input: Food expenses of 20 and 15 dated 2024-01-10 and 2024-01-12,
monthly period, reference instant 2024-01-15. -/
theorem perCategory_food_30_witness :
    checkBudgetStatus isoDate jan15 (some (categoryBudget "monthly" [("Food", JsNum.fin 30)]))
        [numberExpense "2024-01-10" 20 "Food", numberExpense "2024-01-12" 15 "Food"]
      = { exceeded := true, remaining := none,
          exceededCategories := some [{ category := "Food", exceeded := JsNum.fin 5,
                                        spent := JsNum.fin 35, budget := JsNum.fin 30 }],
          message := Message.exceededIn 1 } :=
  perCategory_food_30 isoDate jan15 (JsVal.string "monthly") JsNum.nan
    (numberExpense "2024-01-10" 20 "Food") (numberExpense "2024-01-12" 15 "Food")
    rfl rfl (amountOf_numberExpense _ _ _) (amountOf_numberExpense _ _ _)
    (by decide!) (by decide!)

theorem JsNum.abs_not_lt_zero (x : JsNum) : x.abs.lt (JsNum.fin 0) = false := by
  cases x <;> simp [JsNum.abs, JsNum.lt]

theorem JsNum.abs_of_not_lt_zero (x : JsNum) (h : x.lt (JsNum.fin 0) = false) :
    x.abs = x := by
  cases x with
  | fin a =>
    simp only [JsNum.lt, decide_eq_false_iff_not, not_lt] at h
    simp [JsNum.abs, abs_of_nonneg h]
  | nan => rfl
  | inf => rfl
  | ninf => simp [JsNum.lt] at h

theorem JsNum.abs_sub_of_lt_zero (a s : JsNum) (h : (a.sub s).lt (JsNum.fin 0) = true) :
    (a.sub s).abs = s.sub a := by
  cases a <;> cases s <;>
    simp_all [JsNum.sub, JsNum.add, JsNum.neg, JsNum.lt, JsNum.abs]
  rename_i x y
  have hneg : x + -y < 0 := by linarith
  rw [abs_of_neg hneg]
  ring

/-- C26: for an overall budget the field `remaining` is the absolute value of
amount - spent, so it is never negative: it is amount - spent when the budget is not
exceeded and spent - amount, the overage, when it is. -/
theorem overall_remaining (D : String → Option Int) (now : Int) (settings : BudgetSettings)
    (expenses : List Transaction) (h : settings.type = JsVal.string "overall") :
    (checkBudgetStatus D now (some settings) expenses).remaining
      = some (settings.amount.sub (calculateTotalExpenses
          (expenses.filter (withinLastNDays D now (periodDays settings.period))))).abs ∧
    (∀ r, (checkBudgetStatus D now (some settings) expenses).remaining = some r →
      r.lt (JsNum.fin 0) = false) ∧
    ((checkBudgetStatus D now (some settings) expenses).exceeded = false →
      (checkBudgetStatus D now (some settings) expenses).remaining
        = some (settings.amount.sub (calculateTotalExpenses
            (expenses.filter (withinLastNDays D now (periodDays settings.period)))))) ∧
    ((checkBudgetStatus D now (some settings) expenses).exceeded = true →
      (checkBudgetStatus D now (some settings) expenses).remaining
        = some ((calculateTotalExpenses
            (expenses.filter (withinLastNDays D now (periodDays settings.period)))).sub
            settings.amount)) := by
  rw [checkBudgetStatus_overall_eq D now settings expenses h]
  refine ⟨rfl, ?_, ?_, ?_⟩
  · intro r hr
    simp only [Option.some.injEq] at hr
    rw [← hr]
    exact JsNum.abs_not_lt_zero _
  · intro hex
    simp only at hex
    simp only [JsNum.abs_of_not_lt_zero _ hex]
  · intro hex
    simp only at hex
    simp only [JsNum.abs_sub_of_lt_zero _ _ hex]

/-- C26 at a concrete input: limit 30 with 35 spent in the week gives remaining 5, and
limit 40 with the same spending gives remaining 5 as well. -/
theorem overall_remaining_witness :
    (checkBudgetStatus isoDate jan15 (some (overallBudget "weekly" 30)) januaryFood).remaining
      = some (JsNum.fin 5) ∧
    (checkBudgetStatus isoDate jan15 (some (overallBudget "weekly" 40)) januaryFood).remaining
      = some (JsNum.fin 5) :=
  ⟨((overall_remaining isoDate jan15 (overallBudget "weekly" 30) januaryFood rfl).1).trans
     (by decide!),
   ((overall_remaining isoDate jan15 (overallBudget "weekly" 40) januaryFood rfl).1).trans
     (by decide!)⟩

/-- C29: when the settings are present but the type is neither 'overall' nor 'category',
or the type is 'category' and there is no mapping `categoryBudgets`, `checkBudgetStatus`
returns exceeded = false, remaining = 0 and the message 'Invalid budget settings', for
every expense list. -/
theorem invalid_settings_status (D : String → Option Int) (now : Int)
    (settings : BudgetSettings) (expenses : List Transaction)
    (h1 : settings.type ≠ JsVal.string "overall")
    (h2 : settings.type ≠ JsVal.string "category" ∨ settings.categoryBudgets = none) :
    checkBudgetStatus D now (some settings) expenses
      = { exceeded := false, remaining := some (JsNum.fin 0), exceededCategories := none,
          message := Message.text "Invalid budget settings" } := by
  unfold checkBudgetStatus
  rcases h2 with h2 | h2
  · simp only [h1, h2, if_false]
  · simp only [h1, h2, if_false, ite_self]

/-- C29 at two concrete settings: the type 'yearly', and the type 'category' without a
mapping. -/
theorem invalid_settings_status_witness :
    checkBudgetStatus isoDate jan15 (some yearlyBudget) januaryFood
      = { exceeded := false, remaining := some (JsNum.fin 0), exceededCategories := none,
          message := Message.text "Invalid budget settings" } ∧
    checkBudgetStatus isoDate jan15 (some categoryBudgetWithoutLimits) januaryFood
      = { exceeded := false, remaining := some (JsNum.fin 0), exceededCategories := none,
          message := Message.text "Invalid budget settings" } :=
  ⟨invalid_settings_status isoDate jan15 yearlyBudget januaryFood (by decide)
     (Or.inl (by decide)),
   invalid_settings_status isoDate jan15 categoryBudgetWithoutLimits januaryFood (by decide)
     (Or.inr rfl)⟩

/-! ## Order of the period totals -/

theorem JsNum.nonneg_cases (x : JsNum) (h : (JsNum.fin 0).le x = true) :
    x = JsNum.inf ∨ ∃ q : ℚ, x = JsNum.fin q ∧ 0 ≤ q := by
  cases x with
  | fin q => right; exact ⟨q, rfl, by simpa [JsNum.le] using h⟩
  | inf => left; rfl
  | nan => simp [JsNum.le] at h
  | ninf => simp [JsNum.le] at h

theorem JsNum.nonneg_add (a b : JsNum) (ha : (JsNum.fin 0).le a = true)
    (hb : (JsNum.fin 0).le b = true) : (JsNum.fin 0).le (a.add b) = true := by
  rcases JsNum.nonneg_cases a ha with rfl | ⟨p, rfl, hp⟩ <;>
    rcases JsNum.nonneg_cases b hb with rfl | ⟨q, rfl, hq⟩ <;>
    simp [JsNum.add, JsNum.le]
  linarith

theorem JsNum.le_add_add (A B a : JsNum) (hA : (JsNum.fin 0).le A = true)
    (hB : (JsNum.fin 0).le B = true) (ha : (JsNum.fin 0).le a = true)
    (h : A.le B = true) : (A.add a).le (B.add a) = true := by
  rcases JsNum.nonneg_cases A hA with rfl | ⟨p, rfl, hp⟩ <;>
    rcases JsNum.nonneg_cases B hB with rfl | ⟨q, rfl, hq⟩ <;>
    rcases JsNum.nonneg_cases a ha with rfl | ⟨r, rfl, hr⟩ <;>
    simp_all [JsNum.add, JsNum.le]

theorem JsNum.le_add_right (A B a : JsNum) (hA : (JsNum.fin 0).le A = true)
    (hB : (JsNum.fin 0).le B = true) (ha : (JsNum.fin 0).le a = true)
    (h : A.le B = true) : A.le (B.add a) = true := by
  rcases JsNum.nonneg_cases A hA with rfl | ⟨p, rfl, hp⟩ <;>
    rcases JsNum.nonneg_cases B hB with rfl | ⟨q, rfl, hq⟩ <;>
    rcases JsNum.nonneg_cases a ha with rfl | ⟨r, rfl, hr⟩ <;>
    simp_all [JsNum.add, JsNum.le]
  linarith

/-- Totals over two filters of a list with non-negative amounts, the first filter keeping
only records that the second keeps: both totals are non-negative and the first is at most
the second. -/
theorem total_filter_le (L : List Transaction) (p q : Transaction → Bool)
    (hpq : ∀ e, p e = true → q e = true) (h : NonNegativeAmounts L) :
    (JsNum.fin 0).le (calculateTotalExpenses (L.filter p)) = true ∧
    (JsNum.fin 0).le (calculateTotalExpenses (L.filter q)) = true ∧
    (calculateTotalExpenses (L.filter p)).le (calculateTotalExpenses (L.filter q)) = true := by
  induction L using List.reverseRecOn with
  | nil => simp [calculateTotalExpenses, JsNum.le]
  | append_singleton l x ih =>
    have hl : NonNegativeAmounts l := fun t ht => h t (by simp [ht])
    have hx : (JsNum.fin 0).le (amountOf x) = true := h x (by simp)
    obtain ⟨ihp, ihq, ihle⟩ := ih hl
    rw [List.filter_append, List.filter_append]
    by_cases hp : p x = true
    · have hq : q x = true := hpq x hp
      have fp : [x].filter p = [x] := by simp [hp]
      have fq : [x].filter q = [x] := by simp [hq]
      rw [fp, fq, calculateTotalExpenses_snoc, calculateTotalExpenses_snoc]
      exact ⟨JsNum.nonneg_add _ _ ihp hx, JsNum.nonneg_add _ _ ihq hx,
        JsNum.le_add_add _ _ _ ihp ihq hx ihle⟩
    · have fp : [x].filter p = [] := by simp [hp]
      rw [fp, List.append_nil]
      by_cases hq : q x = true
      · have fq : [x].filter q = [x] := by simp [hq]
        rw [fq, calculateTotalExpenses_snoc]
        exact ⟨ihp, JsNum.nonneg_add _ _ ihq hx, JsNum.le_add_right _ _ _ ihp ihq hx ihle⟩
      · have fq : [x].filter q = [] := by simp [hq]
        rw [fq, List.append_nil]
        exact ⟨ihp, ihq, ihle⟩

theorem withinLastNDays_mono (D : String → Option Int) (now : Int) (e : Transaction)
    (h : withinLastNDays D now 7 e = true) : withinLastNDays D now 30 e = true := by
  unfold withinLastNDays msPerDay at *
  cases hd : D e.date with
  | none => rw [hd] at h; exact absurd h (by simp)
  | some d =>
    rw [hd] at h
    simp only [decide_eq_true_eq] at h ⊢
    constructor
    · omega
    · exact h.2

/-- C27: for every expense list whose amounts are all non-negative, every parser of dates
and every reference instant,
getWeeklyExpenses <= getMonthlyExpenses <= calculateTotalExpenses. -/
theorem weekly_le_monthly_le_total (D : String → Option Int) (now : Int)
    (expenses : List Transaction) (h : NonNegativeAmounts expenses) :
    (getWeeklyExpenses D now expenses).le (getMonthlyExpenses D now expenses) = true ∧
    (getMonthlyExpenses D now expenses).le (calculateTotalExpenses expenses) = true := by
  rw [getWeeklyExpenses_eq, getMonthlyExpenses_eq]
  constructor
  · exact (total_filter_le expenses _ _ (withinLastNDays_mono D now) h).2.2
  · have := (total_filter_le expenses (withinLastNDays D now 30) (fun _ => true)
      (fun _ _ => rfl) h).2.2
    simpa using this

/-- C27 at a concrete input, reference instant 2024-01-15: the week holds 35, the month 35
and the whole list 75. -/
theorem weekly_le_monthly_le_total_witness :
    NonNegativeAmounts januaryFood ∧
    getWeeklyExpenses isoDate jan15 januaryFood = JsNum.fin 35 ∧
    calculateTotalExpenses januaryFood = JsNum.fin 75 ∧
    (getWeeklyExpenses isoDate jan15 januaryFood).le
      (getMonthlyExpenses isoDate jan15 januaryFood) = true ∧
    (getMonthlyExpenses isoDate jan15 januaryFood).le
      (calculateTotalExpenses januaryFood) = true :=
  ⟨by decide!, by decide!, by decide!,
   weekly_le_monthly_le_total isoDate jan15 januaryFood (by decide!)⟩

/-! ## Monotonicity of the budget status -/

theorem JsNum.sub_add_lt_zero (a s x : JsNum) (hx : (JsNum.fin 0).le x = true)
    (h : (a.sub s).lt (JsNum.fin 0) = true) : (a.sub (s.add x)).lt (JsNum.fin 0) = true := by
  rcases JsNum.nonneg_cases x hx with rfl | ⟨q, rfl, hq⟩ <;> cases a <;> cases s <;>
    simp_all [JsNum.sub, JsNum.add, JsNum.neg, JsNum.lt]
  linarith

/-- The value `spent || 0` of a fresh group value: it stays above every limit below 0. -/
theorem numOr_fresh_gt (x b : JsNum) (hx : (JsNum.fin 0).le x = true)
    (h : (JsNum.fin 0).gt b = true) : (numOr (some x) (JsNum.fin 0)).gt b = true := by
  rcases JsNum.nonneg_cases x hx with rfl | ⟨q, rfl, hq⟩
  · cases b <;> simp_all [numOr, JsNum.truthy, JsNum.gt, JsNum.lt]
  · by_cases hq0 : q = 0
    · subst hq0
      simpa [numOr, JsNum.truthy] using h
    · cases b <;> simp_all [numOr, JsNum.truthy, JsNum.gt, JsNum.lt]
      linarith

/-- The value `spent || 0` of a group value that grows by a non-negative amount: it stays
above every limit that the former value was above. -/
theorem numOr_grown_gt (v x b : JsNum) (hx : (JsNum.fin 0).le x = true)
    (hv : v.truthy = true) (h : v.gt b = true) :
    (numOr (some (v.add x)) (JsNum.fin 0)).gt b = true := by
  rcases JsNum.nonneg_cases x hx with rfl | ⟨q, rfl, hq⟩
  · cases v <;> cases b <;> simp_all [numOr, JsNum.truthy, JsNum.gt, JsNum.lt, JsNum.add]
  · cases v with
    | nan => simp [JsNum.truthy] at hv
    | inf => cases b <;> simp_all [numOr, JsNum.truthy, JsNum.gt, JsNum.lt, JsNum.add]
    | ninf => cases b <;> simp_all [JsNum.gt, JsNum.lt]
    | fin p =>
      cases b with
      | nan => simp [JsNum.gt, JsNum.lt] at h
      | inf => simp [JsNum.gt, JsNum.lt] at h
      | ninf =>
        by_cases hz : p + q = 0
        · simp [numOr, JsNum.truthy, JsNum.gt, JsNum.lt, JsNum.add, hz]
        · simp [numOr, JsNum.truthy, JsNum.gt, JsNum.lt, JsNum.add, hz]
      | fin r =>
        have hr : r < p := by simpa [JsNum.gt, JsNum.lt] using h
        by_cases hz : p + q = 0
        · simp only [numOr, JsNum.add, JsNum.truthy, hz, ne_eq, not_true_eq_false,
            decide_False, Bool.false_eq_true, if_false, JsNum.gt, JsNum.lt, decide_eq_true_eq]
          linarith
        · simp only [numOr, JsNum.add, JsNum.truthy, hz, ne_eq, not_false_eq_true,
            decide_True, if_true, JsNum.gt, JsNum.lt, decide_eq_true_eq]
          linarith

/-- Grouping one more expense of non-negative amount keeps every category's `spent || 0`
above the limits it was above. -/
theorem groupStep_spent_gt (key : Transaction → String) (ce : Dict) (e : Transaction)
    (c : String) (b : JsNum) (he : (JsNum.fin 0).le (amountOf e) = true)
    (h : (numOr (objGet ce c) (JsNum.fin 0)).gt b = true) :
    (numOr (objGet (groupStep key ce e) c) (JsNum.fin 0)).gt b = true := by
  by_cases hk : key e = c
  · subst hk
    unfold groupStep
    cases hget : objGet ce (key e) with
    | none =>
      rw [hget] at h
      simp only [objGet_objSet, if_true]
      exact numOr_fresh_gt _ _ he (by simpa [numOr] using h)
    | some v =>
      rw [hget] at h
      by_cases hv : v.truthy = true
      · simp only [hv, if_true, objGet_objSet]
        exact numOr_grown_gt v _ b he hv (by simpa [numOr, hv] using h)
      · simp only [hv, if_false, objGet_objSet, if_true, Bool.false_eq_true]
        exact numOr_fresh_gt _ _ he (by simpa [numOr, hv] using h)
  · have hsame : objGet (groupStep key ce e) c = objGet ce c := by
      unfold groupStep
      cases objGet ce (key e) with
      | none => simp [objGet_objSet, hk]
      | some v => by_cases hv : v.truthy = true <;> simp [hv, objGet_objSet, hk]
    rw [hsame]
    exact h

theorem flaggedEntry_isSome_iff (cb ce : Dict) (c : String) :
    (flaggedEntry cb ce c).isSome = true ↔
      ∃ b, objGet cb c = some b ∧ (numOr (objGet ce c) (JsNum.fin 0)).gt b = true := by
  unfold flaggedEntry
  cases objGet cb c with
  | none => simp
  | some b =>
    by_cases hgt : (numOr (objGet ce c) (JsNum.fin 0)).gt b = true
    · simp [hgt]
    · simp [hgt]

theorem filterMap_length_pos_iff {α β : Type} (f : α → Option β) (l : List α) :
    0 < (l.filterMap f).length ↔ ∃ a ∈ l, (f a).isSome = true := by
  induction l with
  | nil => simp
  | cons a l ih =>
    rw [List.filterMap_cons]
    cases hf : f a with
    | none => simp [hf, ih]
    | some b => simp [hf]

/-- C28: for a fixed budget, overall or per-category, a fixed period and reference
instant, if `checkBudgetStatus` reports exceeded for an expense list, it reports exceeded
for that list with one more expense of non-negative amount appended. -/
theorem exceeded_monotone (D : String → Option Int) (now : Int)
    (budgetSettings : Option BudgetSettings) (expenses : List Transaction) (e : Transaction)
    (he : (JsNum.fin 0).le (amountOf e) = true)
    (h : (checkBudgetStatus D now budgetSettings expenses).exceeded = true) :
    (checkBudgetStatus D now budgetSettings (expenses ++ [e])).exceeded = true := by
  cases budgetSettings with
  | none => exact absurd h (by simp [checkBudgetStatus])
  | some settings =>
    by_cases ht : settings.type = JsVal.string "overall"
    · rw [checkBudgetStatus_overall_eq D now settings _ ht] at h ⊢
      simp only at h ⊢
      rw [List.filter_append]
      by_cases hin : withinLastNDays D now (periodDays settings.period) e = true
      · have fe : [e].filter (withinLastNDays D now (periodDays settings.period)) = [e] := by
          simp [hin]
        rw [fe, calculateTotalExpenses_snoc]
        exact JsNum.sub_add_lt_zero _ _ _ he h
      · have fe : [e].filter (withinLastNDays D now (periodDays settings.period)) = [] := by
          simp [hin]
        rw [fe, List.append_nil]
        exact h
    · by_cases hc : settings.type = JsVal.string "category"
      · cases hcb : settings.categoryBudgets with
        | none =>
          rw [invalid_settings_status D now settings expenses ht (Or.inr hcb)] at h
          exact absurd h (by simp)
        | some cb =>
          rw [checkBudgetStatus_category_eq D now settings _ cb hc hcb] at h ⊢
          simp only [category_filter_eq, gt_iff_lt, decide_eq_true_eq,
            filterMap_length_pos_iff] at h ⊢
          obtain ⟨c, hcmem, hsome⟩ := h
          refine ⟨c, hcmem, ?_⟩
          rw [flaggedEntry_isSome_iff] at hsome ⊢
          obtain ⟨b, hb, hgt⟩ := hsome
          refine ⟨b, hb, ?_⟩
          rw [List.filter_append]
          by_cases hin : sinceLastNDays D now (periodDays settings.period) e = true
          · have fe : [e].filter (sinceLastNDays D now (periodDays settings.period)) = [e] := by
              simp [hin]
            rw [fe]
            unfold calculateExpensesByCategory at hgt ⊢
            rw [List.foldl_append, List.foldl_cons, List.foldl_nil, categoryStep_eq]
            rw [categoryStep_eq] at hgt
            exact groupStep_spent_gt categoryKey _ e c b he hgt
          · have fe : [e].filter (sinceLastNDays D now (periodDays settings.period)) = [] := by
              simp [hin]
            rw [fe, List.append_nil]
            exact hgt
      · rw [invalid_settings_status D now settings expenses ht (Or.inl hc)] at h
        exact absurd h (by simp)

/-- C28 at a concrete input: the weekly limit 30 is exceeded by the Food expenses of 20
and 15, and stays exceeded with one more expense of 12.50 appended. -/
theorem exceeded_monotone_witness :
    (JsNum.fin 0).le (amountOf (sampleExpense "2024-01-14" "12.50" "Transportation")) = true ∧
    (checkBudgetStatus isoDate jan15 (some (overallBudget "weekly" 30)) januaryFood).exceeded
      = true ∧
    (checkBudgetStatus isoDate jan15 (some (overallBudget "weekly" 30))
      (januaryFood ++ [sampleExpense "2024-01-14" "12.50" "Transportation"])).exceeded = true :=
  ⟨by decide!, by decide!,
   exceeded_monotone isoDate jan15 (some (overallBudget "weekly" 30)) januaryFood
     (sampleExpense "2024-01-14" "12.50" "Transportation") (by decide!) (by decide!)⟩

/-! ## Top spending categories -/

/-- C21 on the code: with the group sums Food 1, Transportation NaN (amounts "20" and
"abc"), Entertainment 100 and Groceries 200, in mapping order, the comparator
`b.amount - a.amount` returns NaN against the Transportation group, which the sort takes
for 0. The sorted list is Food, Transportation, Groceries, Entertainment and the list
shown is its first three entries: Entertainment (100) is left out while Food (1) is
listed. -/
theorem topSpending_nan_group :
    calculateExpensesByCategory nanGroupExpenses
      = [("Food", JsNum.fin 1), ("Transportation", JsNum.nan),
         ("Entertainment", JsNum.fin 100), ("Groceries", JsNum.fin 200)] ∧
    (categoryPercentages nanGroupExpenses).map (fun s => (s.category, s.amount))
      = [("Food", JsNum.fin 1), ("Transportation", JsNum.nan), ("Groceries", JsNum.fin 200),
         ("Entertainment", JsNum.fin 100)] ∧
    (topSpendingCategories nanGroupExpenses).map (fun s => (s.category, s.amount))
      = [("Food", JsNum.fin 1), ("Transportation", JsNum.nan), ("Groceries", JsNum.fin 200)] ∧
    ((categoryPercentages nanGroupExpenses).drop 3).map (fun s => (s.category, s.amount))
      = [("Entertainment", JsNum.fin 100)] ∧
    (JsNum.fin 100).gt (JsNum.fin 1) = true := by
  decide!

/-! ## Inputs are not mutated -/

theorem Heap.read_alloc (h : Heap) (xs : List Transaction) (r : Nat)
    (hr : r < h.arrays.length) : (h.alloc xs).1.read r = h.read r := by
  simp [Heap.read, Heap.alloc, List.getD_eq_getElem?_getD, List.getElem?_append_left hr]

theorem Heap.read_alloc_new (h : Heap) (xs : List Transaction) :
    (h.alloc xs).1.read (h.alloc xs).2 = xs := by
  simp [Heap.read, Heap.alloc, List.getD_eq_getElem?_getD]

theorem Heap.read_write_ne (h : Heap) (xs : List Transaction) (r r' : Nat) (hne : r' ≠ r) :
    (h.write r' xs).read r = h.read r := by
  simp [Heap.read, Heap.write, List.getD_eq_getElem?_getD, List.getElem?_set_ne hne]

theorem Heap.read_write_same (h : Heap) (xs : List Transaction) (r : Nat)
    (hr : r < h.arrays.length) : (h.write r xs).read r = xs := by
  simp [Heap.read, Heap.write, List.getD_eq_getElem?_getD, hr]

theorem Heap.alloc_length (h : Heap) (xs : List Transaction) :
    (h.alloc xs).1.arrays.length = h.arrays.length + 1 := by
  simp [Heap.alloc]

theorem Heap.write_length (h : Heap) (xs : List Transaction) (r : Nat) :
    (h.write r xs).arrays.length = h.arrays.length := by
  simp [Heap.write]

/-- Every array that exists before `getRecentTransactions` is called holds the same records
in the same order after the call, and the array returned holds what the function on lists
computes. -/
theorem getRecentTransactionsH_frame (D : String → Option Int) (h : Heap)
    (expenses income : Nat) (count : Option Nat) :
    (∀ r, r < h.arrays.length →
      (getRecentTransactionsH D h expenses income count).1.read r = h.read r) ∧
    (getRecentTransactionsH D h expenses income count).1.read
        (getRecentTransactionsH D h expenses income count).2
      = getRecentTransactions D (h.read expenses) (h.read income) count := by
  have hnew : (h.alloc (h.read expenses ++ h.read income)).2 = h.arrays.length := rfl
  constructor
  · intro r hr
    unfold getRecentTransactionsH
    simp only []
    rw [Heap.read_alloc _ _ _ (by
      rw [Heap.write_length, Heap.alloc_length]; omega)]
    rw [Heap.read_write_ne _ _ _ _ (by rw [hnew]; omega), Heap.read_alloc _ _ _ hr]
  · unfold getRecentTransactionsH getRecentTransactions
    simp only []
    rw [Heap.read_alloc_new, Heap.read_write_same _ _ _ (by
      rw [Heap.alloc_length, hnew]; omega), Heap.read_alloc_new]

theorem filterByDateRangeH_frame (D : String → Option Int) (h : Heap) (transactions : Nat)
    (startDate endDate : Option String) :
    (∀ r, r < h.arrays.length →
      (filterByDateRangeH D h transactions startDate endDate).1.read r = h.read r) ∧
    (filterByDateRangeH D h transactions startDate endDate).1.read
        (filterByDateRangeH D h transactions startDate endDate).2
      = filterByDateRange D (h.read transactions) startDate endDate := by
  unfold filterByDateRangeH filterByDateRange
  by_cases hb : (!strTruthy startDate && !strTruthy endDate) = true
  · rw [if_pos hb, if_pos hb]
    exact ⟨fun r _ => rfl, rfl⟩
  · rw [if_neg hb, if_neg hb]
    exact ⟨fun r hr => Heap.read_alloc _ _ _ hr, Heap.read_alloc_new _ _⟩

theorem getWeeklyExpensesH_frame (D : String → Option Int) (now : Int) (h : Heap)
    (expenses : Nat) :
    (∀ r, r < h.arrays.length → (getWeeklyExpensesH D now h expenses).1.read r = h.read r) ∧
    (getWeeklyExpensesH D now h expenses).2 = getWeeklyExpenses D now (h.read expenses) := by
  unfold getWeeklyExpensesH getWeeklyExpenses
  simp only []
  exact ⟨fun r hr => Heap.read_alloc _ _ _ hr, by rw [Heap.read_alloc_new]⟩

theorem getMonthlyExpensesH_frame (D : String → Option Int) (now : Int) (h : Heap)
    (expenses : Nat) :
    (∀ r, r < h.arrays.length → (getMonthlyExpensesH D now h expenses).1.read r = h.read r) ∧
    (getMonthlyExpensesH D now h expenses).2 = getMonthlyExpenses D now (h.read expenses) := by
  unfold getMonthlyExpensesH getMonthlyExpenses
  simp only []
  exact ⟨fun r hr => Heap.read_alloc _ _ _ hr, by rw [Heap.read_alloc_new]⟩

theorem checkBudgetStatusH_frame (D : String → Option Int) (now : Int) (h : Heap)
    (budgetSettings : Option BudgetSettings) (expenses : Nat) :
    (∀ r, r < h.arrays.length →
      (checkBudgetStatusH D now h budgetSettings expenses).1.read r = h.read r) ∧
    (checkBudgetStatusH D now h budgetSettings expenses).2
      = checkBudgetStatus D now budgetSettings (h.read expenses) := by
  cases budgetSettings with
  | none => exact ⟨fun r _ => rfl, rfl⟩
  | some settings =>
    unfold checkBudgetStatusH checkBudgetStatus
    by_cases ht : settings.type = JsVal.string "overall"
    · simp only [ht, if_true]
      by_cases hp : settings.period = JsVal.string "weekly"
      · simp only [hp, if_true]
        exact ⟨(getWeeklyExpensesH_frame D now h expenses).1,
          by rw [(getWeeklyExpensesH_frame D now h expenses).2]⟩
      · simp only [hp, if_false]
        exact ⟨(getMonthlyExpensesH_frame D now h expenses).1,
          by rw [(getMonthlyExpensesH_frame D now h expenses).2]⟩
    · simp only [ht, if_false]
      cases hcb : (if settings.type = JsVal.string "category" then settings.categoryBudgets
          else none) with
      | none => exact ⟨fun r _ => rfl, rfl⟩
      | some cb =>
        by_cases hp : settings.period = JsVal.string "weekly"
        · simp only [hp, if_true, calculateExpensesByCategoryH, Heap.read_alloc_new]
          exact ⟨fun r hr => Heap.read_alloc _ _ _ hr, rfl⟩
        · simp only [hp, if_false, calculateExpensesByCategoryH, Heap.read_alloc_new]
          exact ⟨fun r hr => Heap.read_alloc _ _ _ hr, rfl⟩

/-- C22: the aggregation functions do not mutate their inputs. After
`getRecentTransactions(expenses, income, n)` every array that existed before the call,
among them `expenses` and `income` (also when both are the same array), holds the same
records in the same order; the same for the array passed to `filterByDateRange`, to
`calculateExpensesByCategory` and to `checkBudgetStatus`. The values returned are those
of the functions on lists. -/
theorem inputs_not_mutated (D : String → Option Int) (now : Int) (h : Heap) (r : Nat)
    (hr : r < h.arrays.length) :
    (∀ (expenses income : Nat) (count : Option Nat),
      (getRecentTransactionsH D h expenses income count).1.read r = h.read r ∧
      (getRecentTransactionsH D h expenses income count).1.read
          (getRecentTransactionsH D h expenses income count).2
        = getRecentTransactions D (h.read expenses) (h.read income) count) ∧
    (∀ (transactions : Nat) (startDate endDate : Option String),
      (filterByDateRangeH D h transactions startDate endDate).1.read r = h.read r ∧
      (filterByDateRangeH D h transactions startDate endDate).1.read
          (filterByDateRangeH D h transactions startDate endDate).2
        = filterByDateRange D (h.read transactions) startDate endDate) ∧
    (∀ expenses : Nat,
      (calculateExpensesByCategoryH h expenses).1.read r = h.read r ∧
      (calculateExpensesByCategoryH h expenses).2
        = calculateExpensesByCategory (h.read expenses)) ∧
    (∀ (budgetSettings : Option BudgetSettings) (expenses : Nat),
      (checkBudgetStatusH D now h budgetSettings expenses).1.read r = h.read r ∧
      (checkBudgetStatusH D now h budgetSettings expenses).2
        = checkBudgetStatus D now budgetSettings (h.read expenses)) :=
  ⟨fun expenses income count =>
     ⟨(getRecentTransactionsH_frame D h expenses income count).1 r hr,
      (getRecentTransactionsH_frame D h expenses income count).2⟩,
   fun transactions startDate endDate =>
     ⟨(filterByDateRangeH_frame D h transactions startDate endDate).1 r hr,
      (filterByDateRangeH_frame D h transactions startDate endDate).2⟩,
   fun _ => ⟨rfl, rfl⟩,
   fun budgetSettings expenses =>
     ⟨(checkBudgetStatusH_frame D now h budgetSettings expenses).1 r hr,
      (checkBudgetStatusH_frame D now h budgetSettings expenses).2⟩⟩

/-- C22 at a concrete heap: after `getRecentTransactions` on the arrays 0 and 1 the array 0
still holds `tenExpenses`, unsorted, and the array 1 still holds `fourIncome`. -/
theorem inputs_not_mutated_witness :
    (getRecentTransactionsH isoDate sampleHeap 0 1 (some 5)).1.read 0 = tenExpenses ∧
    (getRecentTransactionsH isoDate sampleHeap 0 1 (some 5)).1.read 1 = fourIncome :=
  ⟨((inputs_not_mutated isoDate jan15 sampleHeap 0 (by decide)).1 0 1 (some 5)).1,
   ((inputs_not_mutated isoDate jan15 sampleHeap 1 (by decide)).1 0 1 (some 5)).1⟩

/-! ## Persistence -/

/-- C25: after `saveUserData(v)` has stored a text that `JSON.parse` reads back as v,
`getUserData` returns v; `getUserData` returns `null` when nothing is stored under the key
and when the stored text cannot be parsed, and in general the value that `JSON.parse`
gives for the stored text. It is a total function: a throw of the platform is caught. -/
theorem getUserData_spec {V : Type} (P : Platform V) (storage : Storage) :
    (∀ (v : V) (text : String),
      P.stringify v = Outcome.ok text → P.setItemThrows text = false →
      P.getItemThrows = false → text ≠ "" → P.parse text = Outcome.ok (some v) →
      (saveUserData P storage v).1 = true ∧
      getUserData P (saveUserData P storage v).2 = some v) ∧
    (storage USER_DATA_KEY = none → getUserData P storage = none) ∧
    (∀ data : String, storage USER_DATA_KEY = some data → P.parse data = Outcome.thrown →
      getUserData P storage = none) ∧
    (∀ (data : String) (v : Option V), P.getItemThrows = false →
      storage USER_DATA_KEY = some data → data ≠ "" → P.parse data = Outcome.ok v →
      getUserData P storage = v) := by
  refine ⟨?_, ?_, ?_, ?_⟩
  · intro v text hs hset hget hne hparse
    have hsave : saveUserData P storage v = (true, setItem storage USER_DATA_KEY text) := by
      simp [saveUserData, hs, hset]
    rw [hsave]
    refine ⟨rfl, ?_⟩
    simp [getUserData, hget, setItem, hne, hparse]
  · intro hnone
    unfold getUserData
    by_cases hg : P.getItemThrows = true
    · simp [hg]
    · simp [hg, hnone]
  · intro data hdata hparse
    unfold getUserData
    by_cases hg : P.getItemThrows = true
    · simp [hg]
    · by_cases he : data = ""
      · simp [hg, hdata, he]
      · simp [hg, hdata, he, hparse]
  · intro data v hget hdata hne hparse
    simp [getUserData, hget, hdata, hne, hparse]

/-- C25 at a concrete platform, the JSON of the booleans: `true` is saved and read back;
the empty storage and a stored text that is not JSON give `null`. -/
theorem getUserData_spec_witness :
    (saveUserData boolPlatform emptyStorage true).1 = true ∧
    getUserData boolPlatform (saveUserData boolPlatform emptyStorage true).2 = some true ∧
    getUserData boolPlatform emptyStorage = none ∧
    getUserData boolPlatform (setItem emptyStorage USER_DATA_KEY "oops") = none :=
  ⟨((getUserData_spec boolPlatform emptyStorage).1 true "true" rfl rfl rfl (by decide) rfl).1,
   ((getUserData_spec boolPlatform emptyStorage).1 true "true" rfl rfl rfl (by decide) rfl).2,
   (getUserData_spec boolPlatform emptyStorage).2.1 rfl,
   (getUserData_spec boolPlatform (setItem emptyStorage USER_DATA_KEY "oops")).2.2.1
     "oops" (by decide) (by simp [boolPlatform])⟩

/-! ## Deleting a transaction -/

/-- C30: `handleDeleteTransaction(id, type)` with type 'expense' removes from the expense
list exactly the records whose id is id, keeps the other expenses in their order, and
leaves the income list, the categories and the budget settings unchanged; with any other
type it does the same to the income list and leaves the expense list unchanged; when no
record of the two lists has the id, neither list changes. The record that is saved
carries the new list. -/
theorem handleDeleteTransaction_spec (s : AppState) (id : Int) (type : String) :
    (type = "expense" →
      (handleDeleteTransaction s id type).expenses
          = s.expenses.filter (fun t => decide (t.id ≠ id)) ∧
      (∀ t, t ∈ (handleDeleteTransaction s id type).expenses ↔ t ∈ s.expenses ∧ t.id ≠ id) ∧
      List.Sublist (handleDeleteTransaction s id type).expenses s.expenses ∧
      (handleDeleteTransaction s id type).income = s.income ∧
      (handleDeleteTransaction s id type).userData.expenses
          = (handleDeleteTransaction s id type).expenses) ∧
    (type ≠ "expense" →
      (handleDeleteTransaction s id type).income
          = s.income.filter (fun t => decide (t.id ≠ id)) ∧
      (∀ t, t ∈ (handleDeleteTransaction s id type).income ↔ t ∈ s.income ∧ t.id ≠ id) ∧
      List.Sublist (handleDeleteTransaction s id type).income s.income ∧
      (handleDeleteTransaction s id type).expenses = s.expenses ∧
      (handleDeleteTransaction s id type).userData.income
          = (handleDeleteTransaction s id type).income) ∧
    (handleDeleteTransaction s id type).categories = s.categories ∧
    (handleDeleteTransaction s id type).budgetSettings = s.budgetSettings ∧
    (handleDeleteTransaction s id type).userData.categories = s.userData.categories ∧
    (handleDeleteTransaction s id type).userData.budgetSettings
        = s.userData.budgetSettings ∧
    ((∀ t ∈ s.expenses, t.id ≠ id) → (∀ t ∈ s.income, t.id ≠ id) →
      (handleDeleteTransaction s id type).expenses = s.expenses ∧
      (handleDeleteTransaction s id type).income = s.income) := by
  have hpred : (fun t : Transaction => t.id != id) = (fun t => decide (t.id ≠ id)) := by
    funext t
    by_cases h : t.id = id <;> simp [h]
  by_cases ht : type = "expense"
  · have he : (handleDeleteTransaction s id type).expenses
        = s.expenses.filter (fun t => decide (t.id ≠ id)) := by
      simp only [handleDeleteTransaction, ht, if_true, hpred]
    have hi : (handleDeleteTransaction s id type).income = s.income := by
      simp only [handleDeleteTransaction, ht, if_true]
    refine ⟨fun _ => ⟨he, ?_, ?_, hi, ?_⟩, fun hne => absurd ht hne, ?_, ?_, ?_, ?_, ?_⟩
    · intro t
      rw [he, List.mem_filter]
      simp
    · rw [he]
      exact List.filter_sublist _
    · simp only [handleDeleteTransaction, ht, if_true]
    · simp only [handleDeleteTransaction, ht, if_true]
    · simp only [handleDeleteTransaction, ht, if_true]
    · simp only [handleDeleteTransaction, ht, if_true]
    · simp only [handleDeleteTransaction, ht, if_true]
    · intro hne _
      refine ⟨?_, hi⟩
      rw [he, List.filter_eq_self]
      intro t hmem
      simpa using hne t hmem
  · have hi : (handleDeleteTransaction s id type).income
        = s.income.filter (fun t => decide (t.id ≠ id)) := by
      simp only [handleDeleteTransaction, ht, if_false, hpred]
    have he : (handleDeleteTransaction s id type).expenses = s.expenses := by
      simp only [handleDeleteTransaction, ht, if_false]
    refine ⟨fun h => absurd h ht, fun _ => ⟨hi, ?_, ?_, he, ?_⟩, ?_, ?_, ?_, ?_, ?_⟩
    · intro t
      rw [hi, List.mem_filter]
      simp
    · rw [hi]
      exact List.filter_sublist _
    · simp only [handleDeleteTransaction, ht, if_false]
    · simp only [handleDeleteTransaction, ht, if_false]
    · simp only [handleDeleteTransaction, ht, if_false]
    · simp only [handleDeleteTransaction, ht, if_false]
    · simp only [handleDeleteTransaction, ht, if_false]
    · intro _ hne
      refine ⟨he, ?_⟩
      rw [hi, List.filter_eq_self]
      intro t hmem
      simpa using hne t hmem

/-- C30 at a concrete state: deleting the expense 12 leaves the expenses 11 and 13 and the
income record 12; deleting the income record 12 leaves the three expenses; deleting the
id 99 changes nothing. -/
theorem handleDeleteTransaction_spec_witness :
    (handleDeleteTransaction sampleState 12 "expense").expenses
      = [expenseWithId 11 "1", expenseWithId 13 "3"] ∧
    (handleDeleteTransaction sampleState 12 "expense").income = sampleState.income ∧
    (handleDeleteTransaction sampleState 12 "income").income = [incomeWithId 21 "20"] ∧
    (handleDeleteTransaction sampleState 12 "income").expenses = sampleState.expenses ∧
    (handleDeleteTransaction sampleState 99 "expense").expenses = sampleState.expenses ∧
    (handleDeleteTransaction sampleState 99 "expense").income = sampleState.income :=
  ⟨(((handleDeleteTransaction_spec sampleState 12 "expense").1 rfl).1).trans (by decide),
   ((handleDeleteTransaction_spec sampleState 12 "expense").1 rfl).2.2.2.1,
   (((handleDeleteTransaction_spec sampleState 12 "income").2.1 (by decide)).1).trans
     (by decide),
   ((handleDeleteTransaction_spec sampleState 12 "income").2.1 (by decide)).2.2.2.1,
   ((handleDeleteTransaction_spec sampleState 99 "expense").2.2.2.2.2.2 (by decide)
     (by decide)).1,
   ((handleDeleteTransaction_spec sampleState 99 "expense").2.2.2.2.2.2 (by decide)
     (by decide)).2⟩

end ExpenseTracker
